import Mathlib

/-!
Verification development for the compodoc build-orchestration core
(`src/app/application.ts`).  The TypeScript orchestrator is shallowly
embedded: every asynchronous continuation of the source is translated into
explicit state passing, collaborator engines (file system, markdown engine,
search engine, graph renderer) become environment records of pure functions,
and a step that can resolve, reject, or never settle is translated into an
explicit outcome type.  Machine-irrelevant payloads (actual HTML text,
actual SVG markup) are kept as uninterpreted `String` data supplied by
the environment.
-/

namespace Compodoc

/-- Page type constant `COMPODOC_DEFAULTS.PAGE_TYPES.ROOT` (the defaults
module is an external collaborator; only distinctness of the two constants
matters). -/
def PAGE_ROOT : String := "root"

/-- Page type constant `COMPODOC_DEFAULTS.PAGE_TYPES.INTERNAL`. -/
def PAGE_INTERNAL : String := "internal"

/-- One metadata reference inside a module record: a `name` plus a `type`
tag (the source inspects `metaDataItem.type` with values such as
"directive", "component", "module", "pipe"). -/
structure MetaDataItem where
  name : String
  type : String
deriving DecidableEq, Repr

/-- One entry of a non-module, non-component collection (directive,
injectable, pipe, class, interface, miscellaneous item).  `readme` models
the `readme` property attached by the prepare loops. -/
structure Entry where
  name : String
  id : String
  file : String
  readme : Option String := none
deriving DecidableEq, Repr

/-- One component entry.  `templateUrl` is the external template reference
(`""` when absent, mirroring `templateUrl.length > 0` in the source);
`templateData` is the inline template text attached by
`handleTemplateurl`. -/
structure Comp where
  name : String
  id : String
  file : String
  templateUrl : String := ""
  readme : Option String := none
  templateData : Option String := none
deriving DecidableEq, Repr

/-- One module entry of the crawl result.  Field `ngImports` models the
source field named "imports" (renamed because of a lexical restriction of
this development). -/
structure NgModule where
  name : String
  id : String
  file : String
  declarations : List MetaDataItem := []
  bootstrap : List MetaDataItem := []
  ngImports : List MetaDataItem := []
  ngExports : List MetaDataItem := []
  providers : List MetaDataItem := []
  readme : Option String := none
  graph : Option String := none
deriving DecidableEq, Repr

/-- The `miscellaneous` sub-collections of a crawl result (`variablesM`
models the source field named "variables", renamed: that word is a
reserved token here). -/
structure Miscellaneous where
  variablesM : List Entry := []
  functions : List Entry := []
  typealiases : List Entry := []
  enumerations : List Entry := []
deriving DecidableEq, Repr

/-- The symbol collection held by the dependencies engine after `init` or
`update` (the engine itself lives outside the shown source; the prepare
functions read it through `getModules`, `getComponents`, ...).
`routesChildren` models `dependenciesEngine.routes.children`. -/
structure DependenciesData where
  modules : List NgModule := []
  components : List Comp := []
  directives : List Entry := []
  injectables : List Entry := []
  pipes : List Entry := []
  classes : List Entry := []
  interfaces : List Entry := []
  miscellaneous : Miscellaneous := {}
  routesChildren : List String := []
deriving Repr

/-- One page descriptor as pushed by `configuration.addPage`.  Only the
orchestration-relevant fields are kept; kind-specific payloads (the
module/component record a page points at) are tracked separately in the
planner state, mirroring the by-reference aliasing of the source. -/
structure Page where
  name : String
  id : String
  context : String
  path : Option String := none
  depth : Nat := 0
  pageType : String := PAGE_INTERNAL
deriving DecidableEq, Repr

/-- Environment of external collaborators used by the prepare functions:
the markdown engine (`hasNeighbourReadmeFile`, `readNeighbourReadmeFile`,
`marked`), the file engine (`existsSync`, `get`), node's `path.resolve`,
and the router parser (`generateRoutesIndex`, success encoded as
`routesIndexOk`). -/
structure PrepareEnv where
  hasNeighbourReadmeFile : String → Bool
  readNeighbourReadmeFile : String → String
  markedOf : String → String
  resolvePath : String → String → String
  existsSync : String → Bool
  fileGet : String → Option String
  routesIndexOk : Bool

/-- Readme attachment for a plain entry: the body of the
`hasNeighbourReadmeFile` / `readNeighbourReadmeFile` / `marked` pattern
repeated in every prepare loop of the source. -/
def withReadme (env : PrepareEnv) (e : Entry) : Entry :=
  if env.hasNeighbourReadmeFile e.file then
    { e with readme := some (env.markedOf (env.readNeighbourReadmeFile e.file)) }
  else e

/-- Readme attachment for a component (`prepareComponents` loop head). -/
def withReadmeC (env : PrepareEnv) (c : Comp) : Comp :=
  if env.hasNeighbourReadmeFile c.file then
    { c with readme := some (env.markedOf (env.readNeighbourReadmeFile c.file)) }
  else c

/-- Readme attachment for a module (`prepareModules` loop head). -/
def withReadmeM (env : PrepareEnv) (m : NgModule) : NgModule :=
  if env.hasNeighbourReadmeFile m.file then
    { m with readme := some (env.markedOf (env.readNeighbourReadmeFile m.file)) }
  else m

/-- The metadata filter of `prepareModules`: the `switch (metaDataItem.type)`
applied to the declarations/bootstrap/imports/exports lists.  Note the
`default: return true` branch: an item whose `type` is none of the four
recognized kinds is retained without any lookup. -/
def keepMetaDataItem (d : DependenciesData) (item : MetaDataItem) : Bool :=
  match item.type with
  | "directive" => d.directives.any (fun x => x.name == item.name)
  | "component" => d.components.any (fun x => x.name == item.name)
  | "module" => d.modules.any (fun x => x.name == item.name)
  | "pipe" => d.pipes.any (fun x => x.name == item.name)
  | _ => true

/-- The per-module body of the `_modules.map` in `prepareModules`: filter
the four metadata lists with `keepMetaDataItem` and the providers list
against the injectables collection (name match only). -/
def filterModule (d : DependenciesData) (m : NgModule) : NgModule :=
  { m with
    declarations := m.declarations.filter (keepMetaDataItem d),
    bootstrap := m.bootstrap.filter (keepMetaDataItem d),
    ngImports := m.ngImports.filter (keepMetaDataItem d),
    ngExports := m.ngExports.filter (keepMetaDataItem d),
    providers := m.providers.filter
      (fun p => d.injectables.any (fun inj => inj.name == p.name)) }

/-- Root page pushed unconditionally by `prepareModules`. -/
def modulesRootPage : Page :=
  { name := "modules", id := "modules", context := "modules",
    depth := 0, pageType := PAGE_ROOT }

/-- Item page pushed per module by the `prepareModules` loop. -/
def modulePage (m : NgModule) : Page :=
  { name := m.name, id := m.id, context := "module", path := some "modules",
    depth := 1, pageType := PAGE_INTERNAL }

/-- The whole of `prepareModules` (full-build form, no `someModules`
argument): filter every module, push the root page, then attach readmes and
push one item page per module.  Returns the stored
`configuration.mainData.modules` list and the pushed pages, in push
order. -/
def prepareModules (env : PrepareEnv) (d : DependenciesData) :
    List NgModule × List Page :=
  let ms := (d.modules.map (filterModule d)).map (withReadmeM env)
  (ms, modulesRootPage :: ms.map modulePage)

/-- Item page pushed by the copy-pasted loops of
`prepareDirectives` / `prepareInjectables` / `preparePipes` /
`prepareClasses` / `prepareInterfaces`. -/
def itemPage (pathSeg ctx : String) (e : Entry) : Page :=
  { name := e.name, id := e.id, context := ctx, path := some pathSeg,
    depth := 1, pageType := PAGE_INTERNAL }

/-- Shared body of the five structurally identical prepare loops for plain
entries: attach readmes and push one item page per entry, in crawl
order. -/
def prepareItems (env : PrepareEnv) (pathSeg ctx : String) (es : List Entry) :
    List Entry × List Page :=
  let items := es.map (withReadme env)
  (items, items.map (itemPage pathSeg ctx))

/-- Pages pushed by `prepareMiscellaneous`: one group page per non-empty
sub-collection, in the source order functions, variables, typealiases,
enumerations. -/
def prepareMiscellaneous (m : Miscellaneous) : List Page :=
  (if m.functions.length > 0 then
    [{ name := "functions", id := "miscellaneous-functions",
       context := "miscellaneous-functions", path := some "miscellaneous",
       depth := 1, pageType := PAGE_INTERNAL }] else []) ++
  (if m.variablesM.length > 0 then
    [{ name := "variables", id := "miscellaneous-variables",
       context := "miscellaneous-variables", path := some "miscellaneous",
       depth := 1, pageType := PAGE_INTERNAL }] else []) ++
  (if m.typealiases.length > 0 then
    [{ name := "typealiases", id := "miscellaneous-typealiases",
       context := "miscellaneous-typealiases", path := some "miscellaneous",
       depth := 1, pageType := PAGE_INTERNAL }] else []) ++
  (if m.enumerations.length > 0 then
    [{ name := "enumerations", id := "miscellaneous-enumerations",
       context := "miscellaneous-enumerations", path := some "miscellaneous",
       depth := 1, pageType := PAGE_INTERNAL }] else [])

/-- Root page pushed by `prepareRoutes` (before the routes index is
written). -/
def routesRootPage : Page :=
  { name := "routes", id := "routes", context := "routes",
    depth := 0, pageType := PAGE_ROOT }

/-- Outcome of the promise returned by `handleTemplateurl`.  The three
constructors are the three ways that promise can end: resolve with the
mutated component, never settle, or reject.  The source returns
`new Promise((resolve, reject) => { })` — a promise that never settles —
when the template file does not exist, and a rejected promise when reading
it fails. -/
inductive TplResult where
  | resolved : Comp → TplResult
  | pending : TplResult
  | rejected : TplResult
deriving DecidableEq, Repr

/-- Translation of `handleTemplateurl`: resolve the template path, log and
return a never-settling promise when the file is absent, otherwise read it
and either attach `templateData` or log and reject. -/
def handleTemplateurl (env : PrepareEnv) (c : Comp) : TplResult :=
  let templatePath := env.resolvePath c.file c.templateUrl
  if env.existsSync templatePath = false then
    TplResult.pending
  else
    match env.fileGet templatePath with
    | some data => TplResult.resolved { c with templateData := some data }
    | none => TplResult.rejected

/-- State threaded through the `prepareComponents` loop: the
`mainData.components` records (aliased by the pushed pages), the pushed
pages, and the logged error lines. -/
structure CompState where
  comps : List Comp
  pages : List Page
  log : List String
deriving DecidableEq, Repr

/-- Outcome of the promise returned by `prepareComponents`: either the loop
reached the end and resolved, or it stopped in a continuation that
scheduled nothing further, so the promise never settles. -/
inductive CompResult where
  | done : CompState → CompResult
  | stalled : CompState → CompResult
deriving DecidableEq, Repr

/-- Final state of a `CompResult`, whichever way the loop ended. -/
def CompResult.state : CompResult → CompState
  | CompResult.done st => st
  | CompResult.stalled st => st

/-- True when the `prepareComponents` promise resolved. -/
def CompResult.isDone : CompResult → Bool
  | CompResult.done _ => true
  | CompResult.stalled _ => false

/-- Item page pushed per component. -/
def componentPage (c : Comp) : Page :=
  { name := c.name, id := c.id, context := "component",
    path := some "components", depth := 1, pageType := PAGE_INTERNAL }

/-- Translation of the `prepareComponents` loop.  Per component: attach the
readme, push the page (this happens before template resolution), then, when
a `templateUrl` is present, wait on `handleTemplateurl`: on resolve the
aliased component record now carries `templateData` and the loop continues;
when that promise never settles the loop stops silently; on reject the
rejection handler logs and does not call `loop()`, so the loop stops as
well.  Both source branches (readme present / absent) push the same page
and run the same template logic. -/
def prepareComponentsLoop (env : PrepareEnv) :
    CompState → List Comp → CompResult
  | st, [] => CompResult.done st
  | st, c :: rest =>
    let c1 := withReadmeC env c
    if c1.templateUrl.length > 0 then
      match handleTemplateurl env c1 with
      | TplResult.resolved c2 =>
        prepareComponentsLoop env
          { comps := st.comps ++ [c2],
            pages := st.pages ++ [componentPage c1],
            log := st.log } rest
      | TplResult.pending =>
        CompResult.stalled
          { comps := st.comps ++ [c1],
            pages := st.pages ++ [componentPage c1],
            log := st.log ++ ["Cannot read template for " ++ c1.name] }
      | TplResult.rejected =>
        CompResult.stalled
          { comps := st.comps ++ [c1],
            pages := st.pages ++ [componentPage c1],
            log := st.log ++ ["template read error for " ++ c1.name, ""] }
    else
      prepareComponentsLoop env
        { comps := st.comps ++ [c1],
          pages := st.pages ++ [componentPage c1],
          log := st.log } rest

/-- State of the planner after `prepareEverything`: the stored module and
component records, all pushed pages in push order, and the logged error
lines. -/
structure PlanState where
  modules : List NgModule
  components : List Comp
  pages : List Page
  log : List String
deriving DecidableEq, Repr

/-- Outcome of the `promiseSequential` chain of `prepareEverything`:
`done` when every action resolved, `stalled` when `prepareComponents`
stopped without settling, `failed` when an action rejected (the rejection
is caught by the `.catch` of `prepareEverything`, which only logs). -/
inductive PlanResult where
  | done : PlanState → PlanResult
  | stalled : PlanState → PlanResult
  | failed : PlanState → PlanResult
deriving DecidableEq, Repr

/-- Final state of a `PlanResult`. -/
def PlanResult.state : PlanResult → PlanState
  | PlanResult.done st => st
  | PlanResult.stalled st => st
  | PlanResult.failed st => st

/-- True when the whole prepare sequence resolved. -/
def PlanResult.isDone : PlanResult → Bool
  | PlanResult.done _ => true
  | _ => false

/-- Translation of the page-planning part of `prepareEverything` for a
default-export build with no external includes and coverage disabled (the
coverage and export engines are external collaborators and push no section
pages).  The action list mirrors the source: modules and components are
always prepared; directives, injectables, routes, pipes, classes,
interfaces and miscellaneous only when the matching collection is
non-empty.  `prepareRoutes` pushes its root page first and then rejects
when writing the routes index fails, aborting the remaining actions. -/
def prepareEverything (env : PrepareEnv) (d : DependenciesData) : PlanResult :=
  let mp := prepareModules env d
  match prepareComponentsLoop env { comps := [], pages := [], log := [] }
      d.components with
  | CompResult.stalled cs =>
    PlanResult.stalled
      { modules := mp.1, components := cs.comps,
        pages := mp.2 ++ cs.pages, log := cs.log }
  | CompResult.done cs =>
    let dPages := if d.directives.length > 0 then
      (prepareItems env "directives" "directive" d.directives).2 else []
    let iPages := if d.injectables.length > 0 then
      (prepareItems env "injectables" "injectable" d.injectables).2 else []
    let hasRoutes := d.routesChildren.length > 0
    let rPages := if hasRoutes then [routesRootPage] else []
    if hasRoutes ∧ env.routesIndexOk = false then
      PlanResult.failed
        { modules := mp.1, components := cs.comps,
          pages := mp.2 ++ cs.pages ++ dPages ++ iPages ++ rPages,
          log := cs.log ++ ["routes index generation error"] }
    else
      let pPages := if d.pipes.length > 0 then
        (prepareItems env "pipes" "pipe" d.pipes).2 else []
      let clPages := if d.classes.length > 0 then
        (prepareItems env "classes" "class" d.classes).2 else []
      let ifPages := if d.interfaces.length > 0 then
        (prepareItems env "interfaces" "interface" d.interfaces).2 else []
      let miPages := if d.miscellaneous.variablesM.length > 0 ∨
          d.miscellaneous.functions.length > 0 ∨
          d.miscellaneous.typealiases.length > 0 ∨
          d.miscellaneous.enumerations.length > 0 then
        prepareMiscellaneous d.miscellaneous else []
      PlanResult.done
        { modules := mp.1, components := cs.comps,
          pages := mp.2 ++ cs.pages ++ dPages ++ iPages ++ rPages ++
            pPages ++ clPages ++ ifPages ++ miPages,
          log := cs.log }

/-- One page descriptor as consumed by `processPage`: only the fields the
path computation reads. -/
structure RenderPage where
  name : String
  path : Option String := none
  filename : Option String := none
deriving DecidableEq, Repr

/-- One document submitted to `searchEngine.indexPage`. -/
structure IndexEntry where
  pageName : String
  rawData : String
  url : String
deriving DecidableEq, Repr

/-- Environment of the render and index stage: the template renderer, the
output path, the file engine's write outcome per target path, and the
outcomes of the two possible `generateSearchIndexJson` calls. -/
structure RenderEnv where
  render : RenderPage → String
  output : String
  writeOk : String → Bool
  persistOk : Bool
  persistAdditionalOk : Bool

/-- State of the render and index stage: the in-memory search index, the
persisted search-index artifact (`none` while `generateSearchIndexJson`
has not succeeded), the successfully written target paths, and the logged
error lines. -/
structure RenderState where
  index : List IndexEntry
  persisted : Option (List IndexEntry)
  written : List String
  log : List String
deriving DecidableEq, Repr

/-- RenderState at the start of a build. -/
def renderState0 : RenderState :=
  { index := [], persisted := none, written := [], log := [] }

/-- The target-path computation of `processPage`: append a slash when the
output string contains none, then the optional page path segment, then
`filename`.html or `name`.html. -/
def finalPagePath (output : String) (page : RenderPage) : String :=
  let fp := if output.toList.contains '/' then output else output ++ "/"
  let fp := match page.path with
    | some p => fp ++ p ++ "/"
    | none => fp
  match page.filename with
  | some f => fp ++ f ++ ".html"
  | none => fp ++ page.name ++ ".html"

/-- Translation of `processPage`: render, compute the target path, submit
the rendered text to `searchEngine.indexPage` (this precedes the write),
then attempt the write; a write failure is logged and the promise rejects
(with the empty string).  Returns the new state and whether the page's
promise resolved. -/
def processPage (env : RenderEnv) (st : RenderState) (page : RenderPage) :
    RenderState × Bool :=
  let htmlData := env.render page
  let fp := finalPagePath env.output page
  let st1 := { st with
    index := st.index ++
      [({ pageName := page.name, rawData := htmlData, url := fp } : IndexEntry)] }
  if env.writeOk fp then
    ({ st1 with written := st1.written ++ [fp] }, true)
  else
    ({ st1 with
        log := st1.log ++ ["Error during " ++ page.name ++ " page generation"] },
      false)

/-- The `Promise.all(pages.map(page => processPage(page)))` of
`processPages` and `processAdditionalPages`: every page is processed (all
promises are started by `map`, so each page renders, indexes and attempts
its write regardless of its siblings), and the aggregate is fulfilled only
when every page's promise resolved. -/
def processAllPages (env : RenderEnv) (st : RenderState) :
    List RenderPage → RenderState × Bool
  | [] => (st, true)
  | p :: rest =>
    let r1 := processPage env st p
    let r2 := processAllPages env r1.1 rest
    (r2.1, r1.2 && r2.2)

/-- Translation of `processAdditionalPages`: process all additional pages;
on aggregate success persist the search index again (a persist failure here
has no rejection handler and settles nothing); on aggregate failure log.
The returned flag states whether `processResources` was reached. -/
def processAdditionalPages (env : RenderEnv) (st : RenderState)
    (adds : List RenderPage) : RenderState × Bool :=
  let r := processAllPages env st adds
  if r.2 then
    if env.persistAdditionalOk then
      ({ r.1 with persisted := some r.1.index }, true)
    else (r.1, false)
  else ({ r.1 with log := r.1.log ++ [""] }, false)

/-- Translation of `processPages`: process all pages; only on aggregate
success persist the search index, and only then continue to the additional
pages or to the resources step.  An aggregate failure (some page write
rejected) is caught and logged (the rejection value is the empty string)
— nothing is returned to the caller, the source function returns
`undefined`.  The returned flag states whether `processResources` was
reached. -/
def processPages (env : RenderEnv) (st : RenderState)
    (pages adds : List RenderPage) : RenderState × Bool :=
  let r := processAllPages env st pages
  if r.2 then
    if env.persistOk then
      let st2 := { r.1 with persisted := some r.1.index }
      if adds.length > 0 then processAdditionalPages env st2 adds
      else (st2, true)
    else ({ r.1 with log := r.1.log ++ ["search index persist error"] }, false)
  else ({ r.1 with log := r.1.log ++ [""] }, false)

/-- Environment of `processResources`: the outcomes of the bundled-resource
copy and of the mutually exclusive external-theme / custom-favicon copies,
plus the `serve` flag. -/
structure FinalEnv where
  resourcesCopyOk : Bool
  extTheme : Bool
  themeCopyOk : Bool
  customFavicon : Bool
  faviconCopyOk : Bool
  serve : Bool
deriving DecidableEq, Repr

/-- Whether the `onComplete` continuation of `processResources` runs:
the bundled copy must succeed and then exactly one of the three branches
(external theme, custom favicon, neither) must reach `onComplete`; a copy
failure in the chosen branch is logged and `onComplete` is skipped. -/
def onCompleteReached (fenv : FinalEnv) : Bool :=
  fenv.resourcesCopyOk &&
    (if fenv.extTheme then fenv.themeCopyOk
     else if fenv.customFavicon then fenv.faviconCopyOk
     else true)

/-- Whether `processResources` ends the build (resolves the generation
promise and runs `endCallback`): `onComplete` must run and the `serve`
branch must not be taken — when serving, `onComplete` hands over to the web
server without resolving or removing the listeners. -/
def processResources (fenv : FinalEnv) : Bool :=
  onCompleteReached fenv && !fenv.serve

/-- One module record as read by `processGraphs` from
`configuration.mainData.modules` (name, owning file, attached graph
markup). -/
structure GModule where
  name : String
  file : String
  graph : Option String := none
deriving DecidableEq, Repr

/-- Environment of the graph stage: the raw-module accessor of the
dependencies engine and the outcomes of the external graph renderer
(`ngdEngine.renderGraph` keyed by its source argument, `readGraph` keyed by
the artifact path). -/
structure GraphEnv where
  output : String
  rawModule : String → NgModule
  renderModuleOk : String → Bool
  readModuleGraph : String → Option String
  renderMainOk : Bool
  readMainGraph : Option String

/-- State of the graph stage.  `disableMainGraph` and `mainGraph` live in
`configuration.mainData`, so they persist from one build to the next in
watch mode.  `mainRenderCalls` counts whole-project renderer invocations
and `moduleRenderCalls` records the per-module renderer invocations in
order. -/
structure GraphState where
  mainGraph : Option String := none
  disableMainGraph : Bool := false
  mainRenderCalls : Nat := 0
  moduleRenderCalls : List String := []
  modulesDone : List GModule := []
  log : List String := []
deriving DecidableEq, Repr

/-- GraphState at process start. -/
def graphState0 : GraphState := {}

/-- The ways an asynchronous stage of this pipeline can end: it schedules
the next stage (`proceeded`), it stops in a handler that schedules nothing
and settles nothing (`halted`), or it rejects towards its caller
(`raised`).  `prepareRoutes` is an example of a source function using the
third way; the graph stage handlers use only the first two. -/
inductive StageEnd where
  | proceeded : StageEnd
  | halted : StageEnd
  | raised : String → StageEnd
deriving DecidableEq, Repr

/-- True when the stage rejected towards its caller. -/
def StageEnd.isRaised : StageEnd → Bool
  | StageEnd.raised _ => true
  | _ => false

/-- The `finalPath` computed per module by `processGraphs` (the path
separator is modelled as a slash). -/
def graphModulePath (output name : String) : String :=
  (if output.toList.contains '/' then output else output ++ "/") ++ "modules/" ++ name

/-- The `_rawModule.declarations.length > 0 || ...` test of
`processGraphs`: at least one of the five relation lists of the raw module
is non-empty. -/
def hasRelations (m : NgModule) : Bool :=
  m.declarations.length > 0 || m.bootstrap.length > 0 ||
  m.ngImports.length > 0 || m.ngExports.length > 0 ||
  m.providers.length > 0

/-- Translation of the module loop of `processGraphs`.  A module whose raw
relation lists are all empty is skipped.  Otherwise the renderer is invoked
and the artifact read back; the error handler of either step only logs —
it calls neither `loop()` nor any reject — so the loop halts there: the
remaining modules are never visited and `processPages` is never invoked. -/
def graphLoop (env : GraphEnv) (st : GraphState) :
    List GModule → GraphState × StageEnd
  | [] => (st, StageEnd.proceeded)
  | m :: rest =>
    let finalPath := graphModulePath env.output m.name
    let raw := env.rawModule m.name
    if hasRelations raw then
      let st1 := { st with moduleRenderCalls := st.moduleRenderCalls ++ [m.name] }
      if env.renderModuleOk m.file then
        match env.readModuleGraph (finalPath ++ "/dependencies.svg") with
        | some data =>
          graphLoop env
            { st1 with modulesDone := st1.modulesDone ++ [{ m with graph := some data }] }
            rest
        | none =>
          ({ st1 with log := st1.log ++ ["Error during graph read: "] },
            StageEnd.halted)
      else
        ({ st1 with log := st1.log ++ ["module graph generation error"] },
          StageEnd.halted)
    else
      graphLoop env { st with modulesDone := st.modulesDone ++ [m] } rest

/-- Translation of `processGraphs`.  With graphs disabled the stage goes
straight on to `processPages`.  Otherwise the whole-project graph is
rendered exactly once; if that render (or the read-back) fails the failure
is logged, `disableMainGraph` is set (and never reset anywhere in the
source) and the module loop still runs. -/
def processGraphs (env : GraphEnv) (st : GraphState) (disableGraph : Bool)
    (modules : List GModule) : GraphState × StageEnd :=
  if disableGraph then (st, StageEnd.proceeded)
  else
    let st1 := { st with mainRenderCalls := st.mainRenderCalls + 1 }
    if env.renderMainOk then
      match env.readMainGraph with
      | some data => graphLoop env { st1 with mainGraph := some data } modules
      | none =>
        graphLoop env
          { st1 with
            disableMainGraph := true,
            log := st1.log ++ ["Error during main graph reading : "] } modules
    else
      graphLoop env
        { st1 with
          disableMainGraph := true,
          log := st1.log ++ ["main graph generation error"] } modules

/-- One changed file as seen by the watch coordinator: its extension (as
`path.extname` would return it) and its directory (as `path.dirname` would
return it).  The `path` module is an external collaborator, so these two
attributes are taken as given per file. -/
structure WFile where
  ext : String
  dir : String
deriving DecidableEq, Repr

/-- The three content-change rebuild paths of `runnerChange`. -/
inductive RebuildPath where
  | micro : RebuildPath
  | rootMarkdown : RebuildPath
  | externalDocs : RebuildPath
deriving DecidableEq, Repr

/-- Translation of `hasWatchedFilesTSFiles`: a `forEach` that latches
`result` to true when some file has extension `.ts`. -/
def hasWatchedFilesTSFiles (updatedFiles : List WFile) : Bool :=
  updatedFiles.foldl
    (fun result file => if file.ext == ".ts" then true else result) false

/-- Translation of `hasWatchedFilesRootMarkdownFiles`: latches `result` to
true when some file has extension `.md` and its directory is the process
working directory. -/
def hasWatchedFilesRootMarkdownFiles (cwd : String)
    (updatedFiles : List WFile) : Bool :=
  updatedFiles.foldl
    (fun result file =>
      if file.ext == ".md" && file.dir == cwd then true else result) false

/-- Translation of `runnerChange`: copy the accumulated
`watchChangedFiles` into `updatedFiles`, then choose the rebuild path by
the two classification predicates in priority order. -/
def runnerChange (cwd : String) (watchChangedFiles : List WFile) :
    RebuildPath :=
  let updatedFiles := watchChangedFiles
  if hasWatchedFilesTSFiles updatedFiles then RebuildPath.micro
  else if hasWatchedFilesRootMarkdownFiles cwd updatedFiles then
    RebuildPath.rootMarkdown
  else RebuildPath.externalDocs

/-- Events of the orchestration trace used for timing claims.  Only the
orchestration-relevant events appear: a trace is the sequence of
continuations in the order the JavaScript engine runs them — the
synchronous part of a continuation runs to completion before any pending
promise settles, which is why `filesCleared` (a synchronous statement)
precedes every asynchronous settle event scheduled before it. -/
inductive BEvent where
  | prepDone : BEvent
  | graphsInvoked : BEvent
  | pagesInvoked : BEvent
  | filesCleared : BEvent
  | pageSettled : String → BEvent
  | indexPersisted : BEvent
  | finalized : BEvent
  | errorLogged : BEvent
deriving DecidableEq, Repr

/-- Whether an event is one of the settle events the changed-file-set
claim speaks about: a page write settling, the search index persist, or
the finalization step completing. -/
def settleEvent : BEvent → Bool
  | BEvent.pageSettled _ => true
  | BEvent.indexPersisted => true
  | BEvent.finalized => true
  | _ => false

/-- Trace of the finalization step (`processResources`): either
`onComplete` runs or the copy failure is logged. -/
def resourcesTrace (fenv : FinalEnv) : List BEvent :=
  if onCompleteReached fenv then [BEvent.finalized] else [BEvent.errorLogged]

/-- Trace of the asynchronous part of `processPages` (and of the optional
additional-pages phase): every page write settles, then on aggregate
success the index is persisted and the pipeline continues; an aggregate or
persist failure is logged instead. -/
def pagesSettleTrace (env : RenderEnv) (fenv : FinalEnv)
    (pages adds : List RenderPage) : List BEvent :=
  pages.map (fun p => BEvent.pageSettled p.name) ++
  (if pages.all (fun p => env.writeOk (finalPagePath env.output p)) then
    if env.persistOk then
      BEvent.indexPersisted ::
      (if adds.length > 0 then
        adds.map (fun p => BEvent.pageSettled p.name) ++
        (if adds.all (fun p => env.writeOk (finalPagePath env.output p)) then
          if env.persistAdditionalOk then
            BEvent.indexPersisted :: resourcesTrace fenv
          else []
        else [BEvent.errorLogged])
      else resourcesTrace fenv)
    else [BEvent.errorLogged]
  else [BEvent.errorLogged])

/-- Trace of the asynchronous continuation of the graph stage inside a
micro-rebuild: the graph steps settle first; when the stage reaches its
end `processPages` runs, otherwise the module failure was logged and
nothing further runs. -/
def graphAsyncTrace (genv : GraphEnv) (gst : GraphState)
    (modules : List GModule) (env : RenderEnv) (fenv : FinalEnv)
    (pages adds : List RenderPage) : List BEvent :=
  match processGraphs genv gst false modules with
  | (_, StageEnd.proceeded) =>
    BEvent.pagesInvoked :: pagesSettleTrace env fenv pages adds
  | _ => [BEvent.errorLogged]

/-- Trace of the micro-rebuild continuation
(`prepareJustAFewThings`): when the prepare actions resolve, the
continuation synchronously invokes `processGraphs()` and then
`clearUpdatedFiles()`; with graphs disabled `processGraphs` synchronously
invokes `processPages` (which starts all writes) before the clear; every
settle event is asynchronous and runs after the clear.  A prepare
rejection is caught and logged; the clear never runs. -/
def microRebuildTrace (env : RenderEnv) (fenv : FinalEnv) (genv : GraphEnv)
    (gst : GraphState) (modules : List GModule) (pages adds : List RenderPage)
    (prepOk disableGraph : Bool) : List BEvent :=
  if prepOk then
    if disableGraph then
      [BEvent.prepDone, BEvent.graphsInvoked, BEvent.pagesInvoked,
        BEvent.filesCleared] ++ pagesSettleTrace env fenv pages adds
    else
      [BEvent.prepDone, BEvent.graphsInvoked, BEvent.filesCleared] ++
        graphAsyncTrace genv gst modules env fenv pages adds
  else [BEvent.errorLogged]

/-- Trace of the root-markdown rebuild continuation
(`rebuildRootMarkdowns`): the continuation synchronously invokes
`processPages()` (starting all writes) and then `clearUpdatedFiles()`;
the settle events run after the clear.  A markdown-prepare rejection is
caught and logged; the clear never runs. -/
def rootMarkdownRebuildTrace (env : RenderEnv) (fenv : FinalEnv)
    (pages adds : List RenderPage) (prepOk : Bool) : List BEvent :=
  if prepOk then
    [BEvent.prepDone, BEvent.pagesInvoked, BEvent.filesCleared] ++
      pagesSettleTrace env fenv pages adds
  else [BEvent.errorLogged]

/-- Trace of the external-docs rebuild continuation
(`rebuildExternalDocumentation`), structurally identical to the
root-markdown one. -/
def externalDocsRebuildTrace (env : RenderEnv) (fenv : FinalEnv)
    (pages adds : List RenderPage) (prepOk : Bool) : List BEvent :=
  if prepOk then
    [BEvent.prepDone, BEvent.pagesInvoked, BEvent.filesCleared] ++
      pagesSettleTrace env fenv pages adds
  else [BEvent.errorLogged]

/-- The reading of the changed-file-set claim as a predicate on traces:
every `filesCleared` event occurs after every settle event of the
rebuild. -/
def clearedOnlyAfterSettles (t : List BEvent) : Bool :=
  ((t.enum.filter (fun ie => ie.2 == BEvent.filesCleared)).map
      (fun ie => ie.1)).all
    (fun i =>
      ((t.enum.filter (fun ie => settleEvent ie.2)).map
          (fun ie => ie.1)).all (fun j => j < i))

/-- Build-level flags of `generate` and `prepareEverything` that decide
which terminal continuation a run reaches: whether the export format is
the default one, whether a non-default format is supported, whether the
export engine resolves, and whether the `promiseSequential` of the prepare
actions resolves. -/
structure BuildEnv where
  exportDefault : Bool
  exportSupported : Bool
  exportOk : Bool
  prepOk : Bool
  disableGraph : Bool
deriving DecidableEq, Repr

/-- Whether a run of `generate` ends with `endCallback` (which removes the
`unhandledRejection` and `uncaughtException` process listeners installed
at its start).  The source calls `endCallback` at exactly two sites: after
a successful export, and in the `onComplete` of `processResources` when
not serving.  Every error handler on the way (the `.catch` of
`prepareEverything`, the unsupported-format warning, the graph-stage halt,
the page/persist failures, the resource-copy failures) only logs, so the
listeners stay installed on those paths. -/
def buildListenersRemoved (benv : BuildEnv) (renv : RenderEnv)
    (fenv : FinalEnv) (genv : GraphEnv) (gst : GraphState)
    (modules : List GModule) (pages adds : List RenderPage) : Bool :=
  if !benv.prepOk then false
  else if !benv.exportDefault then
    if benv.exportSupported then benv.exportOk else false
  else
    match processGraphs genv gst benv.disableGraph modules with
    | (_, StageEnd.proceeded) =>
      if (processPages renv renderState0 pages adds).2 then
        processResources fenv
      else false
    | _ => false

/-! ## Helper lemmas -/

/-- A latching `forEach` fold computes the disjunction of the start value
with `any`. -/
lemma foldl_latch {α : Type} (p : α → Bool) (l : List α) (b : Bool) :
    l.foldl (fun r x => if p x then true else r) b = (b || l.any p) := by
  induction l generalizing b with
  | nil => simp
  | cons x xs ih =>
    simp only [List.foldl_cons, List.any_cons, ih]
    cases h : p x <;> simp [h, Bool.or_assoc, Bool.or_comm]

/-- The index entry `processPage` submits to the search engine for a given
page. -/
def indexEntryOf (env : RenderEnv) (p : RenderPage) : IndexEntry :=
  { pageName := p.name, rawData := env.render p, url := finalPagePath env.output p }

lemma processPage_index (env : RenderEnv) (st : RenderState) (p : RenderPage) :
    ((processPage env st p).1).index = st.index ++ [indexEntryOf env p] := by
  simp only [processPage, indexEntryOf]
  split <;> rfl

lemma processPage_persisted (env : RenderEnv) (st : RenderState)
    (p : RenderPage) : ((processPage env st p).1).persisted = st.persisted := by
  simp only [processPage]
  split <;> rfl

lemma processPage_ok (env : RenderEnv) (st : RenderState) (p : RenderPage) :
    (processPage env st p).2 = env.writeOk (finalPagePath env.output p) := by
  simp only [processPage]
  split <;> simp_all

lemma processPage_log_mono (env : RenderEnv) (st : RenderState)
    (p : RenderPage) (x : String) (hx : x ∈ st.log) :
    x ∈ ((processPage env st p).1).log := by
  simp only [processPage]
  split <;> simp [hx]

lemma processPage_log_err (env : RenderEnv) (st : RenderState) (p : RenderPage)
    (hw : env.writeOk (finalPagePath env.output p) = false) :
    ("Error during " ++ p.name ++ " page generation") ∈
      ((processPage env st p).1).log := by
  simp only [processPage]
  simp [hw]

lemma processPage_written_mono (env : RenderEnv) (st : RenderState)
    (p : RenderPage) (x : String) (hx : x ∈ st.written) :
    x ∈ ((processPage env st p).1).written := by
  simp only [processPage]
  split <;> simp [hx]

lemma processPage_written_self (env : RenderEnv) (st : RenderState)
    (p : RenderPage) (hw : env.writeOk (finalPagePath env.output p) = true) :
    finalPagePath env.output p ∈ ((processPage env st p).1).written := by
  simp only [processPage]
  simp [hw]

lemma processAllPages_persisted (env : RenderEnv) (st : RenderState)
    (ps : List RenderPage) :
    ((processAllPages env st ps).1).persisted = st.persisted := by
  induction ps generalizing st with
  | nil => rfl
  | cons p rest ih =>
    simp only [processAllPages]
    rw [ih, processPage_persisted]

lemma processAllPages_index (env : RenderEnv) (st : RenderState)
    (ps : List RenderPage) :
    ((processAllPages env st ps).1).index =
      st.index ++ ps.map (indexEntryOf env) := by
  induction ps generalizing st with
  | nil => simp [processAllPages]
  | cons p rest ih =>
    simp only [processAllPages, List.map_cons]
    rw [ih, processPage_index, List.append_assoc]
    rfl

lemma processAllPages_ok (env : RenderEnv) (st : RenderState)
    (ps : List RenderPage) :
    (processAllPages env st ps).2 =
      ps.all (fun p => env.writeOk (finalPagePath env.output p)) := by
  induction ps generalizing st with
  | nil => rfl
  | cons p rest ih =>
    simp only [processAllPages, List.all_cons]
    rw [ih, processPage_ok]

lemma processAllPages_log_mono (env : RenderEnv) (st : RenderState)
    (ps : List RenderPage) (x : String) (hx : x ∈ st.log) :
    x ∈ ((processAllPages env st ps).1).log := by
  induction ps generalizing st with
  | nil => exact hx
  | cons p rest ih =>
    simp only [processAllPages]
    exact ih _ (processPage_log_mono env st p x hx)

lemma processAllPages_log_err (env : RenderEnv) (st : RenderState)
    (ps : List RenderPage) (p : RenderPage) (hp : p ∈ ps)
    (hw : env.writeOk (finalPagePath env.output p) = false) :
    ("Error during " ++ p.name ++ " page generation") ∈
      ((processAllPages env st ps).1).log := by
  induction ps generalizing st with
  | nil => cases hp
  | cons q rest ih =>
    simp only [processAllPages]
    rcases List.mem_cons.mp hp with h | h
    · subst h
      exact processAllPages_log_mono env _ rest _
        (processPage_log_err env st p hw)
    · exact ih _ h

lemma processAllPages_written_mono (env : RenderEnv) (st : RenderState)
    (ps : List RenderPage) (x : String) (hx : x ∈ st.written) :
    x ∈ ((processAllPages env st ps).1).written := by
  induction ps generalizing st with
  | nil => exact hx
  | cons p rest ih =>
    simp only [processAllPages]
    exact ih _ (processPage_written_mono env st p x hx)

lemma processAllPages_written_self (env : RenderEnv) (st : RenderState)
    (ps : List RenderPage) (p : RenderPage) (hp : p ∈ ps)
    (hw : env.writeOk (finalPagePath env.output p) = true) :
    finalPagePath env.output p ∈ ((processAllPages env st ps).1).written := by
  induction ps generalizing st with
  | nil => cases hp
  | cons q rest ih =>
    simp only [processAllPages]
    rcases List.mem_cons.mp hp with h | h
    · subst h
      exact processAllPages_written_mono env _ rest _
        (processPage_written_self env st p hw)
    · exact ih _ h

/-! ## Claim C10 -/

/-- C10: for every page processed by `processPage`, the rendered text is
submitted to the search-index builder before the write is attempted — the
in-memory index extension is the same whether or not the page's own write
succeeds, so membership in the index does not depend on write success. -/
theorem processPage_indexes_regardless_of_write (env : RenderEnv)
    (st : RenderState) (page : RenderPage) :
    ((processPage env st page).1).index = st.index ++ [indexEntryOf env page] :=
  processPage_index env st page

/-! ## Claim C1 -/

/-- Render environment of the C1 scenario: page "routes" fails to write,
page "modules" succeeds. -/
def renvC1 : RenderEnv :=
  { render := fun p => p.name ++ "-html",
    output := "doc/",
    writeOk := fun s => s != "doc/routes.html",
    persistOk := true,
    persistAdditionalOk := true }

/-- Page "modules" of the C1 scenario. -/
def pageModulesW : RenderPage := { name := "modules" }

/-- Page "routes" of the C1 scenario. -/
def pageRoutesW : RenderPage := { name := "routes" }

/-- Counterexample to C1 (the spec's own scenario): page "routes" fails to
write while page "modules" succeeds, yet the persisted search index does
not contain the content of "modules" — it contains nothing at all, because
`generateSearchIndexJson` is only reached through the success branch of
`Promise.all`.  The claim "the persisted search index still contains the
content of every page that rendered and wrote successfully" is therefore
false here. -/
theorem processPages_failed_write_skips_index_persist_cex :
    ((processPages renvC1 renderState0 [pageModulesW, pageRoutesW] []).1).persisted
        = none
      ∧ renvC1.writeOk (finalPagePath renvC1.output pageModulesW) = true
      ∧ renvC1.writeOk (finalPagePath renvC1.output pageRoutesW) = false := by
  refine ⟨rfl, rfl, rfl⟩

/-- C1 as amended: when at least one page's write fails, each failing
page's error is still logged and sibling pages are still rendered, indexed
and (when their own write succeeds) written — but the search index is not
persisted at all (it stays whatever it was before), and the aggregate
failure is only logged inside `processPages` (the rejection is caught
there; the source function returns nothing to its caller), so the step
never reaches the resources stage. -/
theorem processPages_write_failure_no_persist (env : RenderEnv)
    (st : RenderState) (pages adds : List RenderPage) (p0 : RenderPage)
    (hp0 : p0 ∈ pages)
    (hw : env.writeOk (finalPagePath env.output p0) = false) :
    ((processPages env st pages adds).1).persisted = st.persisted
      ∧ (processPages env st pages adds).2 = false
      ∧ ((processPages env st pages adds).1).index =
          st.index ++ pages.map (indexEntryOf env)
      ∧ ("Error during " ++ p0.name ++ " page generation") ∈
          ((processPages env st pages adds).1).log
      ∧ (∀ q ∈ pages, env.writeOk (finalPagePath env.output q) = true →
          finalPagePath env.output q ∈ ((processPages env st pages adds).1).written) := by
  have hall : (processAllPages env st pages).2 = false := by
    rw [processAllPages_ok]
    exact List.all_eq_false.mpr ⟨p0, hp0, by simp [hw]⟩
  have hr : processPages env st pages adds =
      ({ (processAllPages env st pages).1 with
          log := ((processAllPages env st pages).1).log ++ [""] }, false) := by
    simp only [processPages, hall]
    rfl
  refine ⟨?_, ?_, ?_, ?_, ?_⟩
  · rw [hr]
    exact processAllPages_persisted env st pages
  · rw [hr]
  · rw [hr]
    exact processAllPages_index env st pages
  · rw [hr]
    exact List.mem_append_left _ (processAllPages_log_err env st pages p0 hp0 hw)
  · intro q hq hqw
    rw [hr]
    exact processAllPages_written_self env st pages q hq hqw

/-- Witness for the amended C1 at the spec's scenario. -/
theorem processPages_write_failure_no_persist_witness :
    (pageRoutesW ∈ [pageModulesW, pageRoutesW]
        ∧ renvC1.writeOk (finalPagePath renvC1.output pageRoutesW) = false)
      ∧ (((processPages renvC1 renderState0 [pageModulesW, pageRoutesW] []).1).persisted
            = renderState0.persisted
          ∧ (processPages renvC1 renderState0 [pageModulesW, pageRoutesW] []).2 = false
          ∧ ((processPages renvC1 renderState0 [pageModulesW, pageRoutesW] []).1).index =
              renderState0.index ++
                [pageModulesW, pageRoutesW].map (indexEntryOf renvC1)
          ∧ ("Error during " ++ pageRoutesW.name ++ " page generation") ∈
              ((processPages renvC1 renderState0 [pageModulesW, pageRoutesW] []).1).log
          ∧ (∀ q ∈ [pageModulesW, pageRoutesW],
              renvC1.writeOk (finalPagePath renvC1.output q) = true →
                finalPagePath renvC1.output q ∈
                  ((processPages renvC1 renderState0 [pageModulesW, pageRoutesW] []).1).written)) :=
  ⟨⟨by decide, by decide⟩,
    processPages_write_failure_no_persist renvC1 renderState0
      [pageModulesW, pageRoutesW] [] pageRoutesW (by decide) (by decide)⟩

/-! ## Claim C5 -/

/-- C5: at content-change fire time the rebuild path is chosen in priority
order over the accumulated changed-file set: any `.ts` file selects the
micro-rebuild; otherwise any root markdown file selects the root-markdown
rebuild; otherwise the external-docs rebuild runs. -/
theorem runnerChange_priority_classification (cwd : String)
    (files : List WFile) :
    (runnerChange cwd files = RebuildPath.micro ↔
        ∃ f ∈ files, f.ext = ".ts")
      ∧ (runnerChange cwd files = RebuildPath.rootMarkdown ↔
          (¬ ∃ f ∈ files, f.ext = ".ts")
            ∧ ∃ f ∈ files, f.ext = ".md" ∧ f.dir = cwd)
      ∧ (runnerChange cwd files = RebuildPath.externalDocs ↔
          (¬ ∃ f ∈ files, f.ext = ".ts")
            ∧ ¬ ∃ f ∈ files, f.ext = ".md" ∧ f.dir = cwd) := by
  have hts : hasWatchedFilesTSFiles files =
      files.any (fun f => f.ext == ".ts") := by
    unfold hasWatchedFilesTSFiles
    rw [foldl_latch]
    simp
  have hmd : hasWatchedFilesRootMarkdownFiles cwd files =
      files.any (fun f => f.ext == ".md" && f.dir == cwd) := by
    unfold hasWatchedFilesRootMarkdownFiles
    rw [foldl_latch]
    simp
  have hAiff : files.any (fun f => f.ext == ".ts") = true ↔
      ∃ f ∈ files, f.ext = ".ts" := by
    simp [List.any_eq_true]
  have hBiff : files.any (fun f => f.ext == ".md" && f.dir == cwd) = true ↔
      ∃ f ∈ files, f.ext = ".md" ∧ f.dir = cwd := by
    simp [List.any_eq_true]
  simp only [runnerChange]
  rw [hts, hmd]
  by_cases hA : files.any (fun f => f.ext == ".ts") = true
  · rw [if_pos hA]
    exact ⟨⟨fun _ => hAiff.mp hA, fun _ => rfl⟩,
      ⟨fun h => RebuildPath.noConfusion h, fun h => absurd (hAiff.mp hA) h.1⟩,
      ⟨fun h => RebuildPath.noConfusion h, fun h => absurd (hAiff.mp hA) h.1⟩⟩
  · have hA2 : ¬ ∃ f ∈ files, f.ext = ".ts" := fun h => hA (hAiff.mpr h)
    rw [if_neg hA]
    by_cases hB : files.any (fun f => f.ext == ".md" && f.dir == cwd) = true
    · rw [if_pos hB]
      exact ⟨⟨fun h => RebuildPath.noConfusion h, fun h => absurd (hAiff.mpr h) hA⟩,
        ⟨fun _ => ⟨hA2, hBiff.mp hB⟩, fun _ => rfl⟩,
        ⟨fun h => RebuildPath.noConfusion h, fun h => absurd (hBiff.mp hB) h.2⟩⟩
    · have hB2 : ¬ ∃ f ∈ files, f.ext = ".md" ∧ f.dir = cwd :=
        fun h => hB (hBiff.mpr h)
      rw [if_neg hB]
      exact ⟨⟨fun h => RebuildPath.noConfusion h, fun h => absurd (hAiff.mpr h) hA⟩,
        ⟨fun h => RebuildPath.noConfusion h, fun h => absurd (hBiff.mpr h.2) hB⟩,
        ⟨fun _ => ⟨hA2, hB2⟩, fun _ => rfl⟩⟩
/-! ## Claim C8 -/

/-- Claim-side reading of "a same-named entry of the matching kind exists
in the current collection", covering every kind the data model names a
collection for.  Used only to state the refutation of C8. -/
def entryOfKindInCollection (d : DependenciesData) (item : MetaDataItem) : Bool :=
  match item.type with
  | "directive" => d.directives.any (fun x => x.name == item.name)
  | "component" => d.components.any (fun x => x.name == item.name)
  | "module" => d.modules.any (fun x => x.name == item.name)
  | "pipe" => d.pipes.any (fun x => x.name == item.name)
  | "injectable" => d.injectables.any (fun x => x.name == item.name)
  | "class" => d.classes.any (fun x => x.name == item.name)
  | "interface" => d.interfaces.any (fun x => x.name == item.name)
  | _ => false

/-- Prepare environment with no neighbour readmes and all collaborator
calls succeeding. -/
def penvTrivial : PrepareEnv :=
  { hasNeighbourReadmeFile := fun _ => false,
    readNeighbourReadmeFile := fun _ => "",
    markedOf := fun sx => sx,
    resolvePath := fun a b => a ++ "/" ++ b,
    existsSync := fun _ => true,
    fileGet := fun _ => some "tpl",
    routesIndexOk := true }

/-- Declaration reference of kind "class" named "X". -/
def mdX : MetaDataItem := { name := "X", type := "class" }

/-- Module whose declarations list holds only `mdX`. -/
def mC8 : NgModule :=
  { name := "M", id := "m", file := "m.ts", declarations := [mdX] }

/-- Collection holding only `mC8`; in particular it has no entry of kind
"class" named "X". -/
def dC8 : DependenciesData := { modules := [mC8] }

/-- Counterexample to C8: the `switch` of the `prepareModules` filter has a
`default: return true` branch, so a declaration reference whose kind is
none of directive/component/module/pipe (here: kind "class") is retained
even though no same-named entry of that kind exists in the collection.
After preparation the module still carries the name+kind pair
("X", "class"), which is absent from the current collection. -/
theorem prepareModules_unrecognized_kind_retained_cex :
    (prepareModules penvTrivial dC8).1 = [mC8]
      ∧ mdX ∈ mC8.declarations
      ∧ entryOfKindInCollection dC8 mdX = false := by
  refine ⟨rfl, by decide, rfl⟩

lemma withReadmeM_declarations (env : PrepareEnv) (m : NgModule) :
    (withReadmeM env m).declarations = m.declarations := by
  unfold withReadmeM
  split <;> rfl

lemma withReadmeM_bootstrap (env : PrepareEnv) (m : NgModule) :
    (withReadmeM env m).bootstrap = m.bootstrap := by
  unfold withReadmeM
  split <;> rfl

lemma withReadmeM_ngImports (env : PrepareEnv) (m : NgModule) :
    (withReadmeM env m).ngImports = m.ngImports := by
  unfold withReadmeM
  split <;> rfl

lemma withReadmeM_ngExports (env : PrepareEnv) (m : NgModule) :
    (withReadmeM env m).ngExports = m.ngExports := by
  unfold withReadmeM
  split <;> rfl

lemma withReadmeM_providers (env : PrepareEnv) (m : NgModule) :
    (withReadmeM env m).providers = m.providers := by
  unfold withReadmeM
  split <;> rfl

lemma keep_of_type_directive (d : DependenciesData) (item : MetaDataItem)
    (h : keepMetaDataItem d item = true) (ht : item.type = "directive") :
    ∃ x ∈ d.directives, x.name = item.name := by
  unfold keepMetaDataItem at h
  rw [ht] at h
  simpa [List.any_eq_true] using h

lemma keep_of_type_component (d : DependenciesData) (item : MetaDataItem)
    (h : keepMetaDataItem d item = true) (ht : item.type = "component") :
    ∃ x ∈ d.components, x.name = item.name := by
  unfold keepMetaDataItem at h
  rw [ht] at h
  simpa [List.any_eq_true] using h

lemma keep_of_type_module (d : DependenciesData) (item : MetaDataItem)
    (h : keepMetaDataItem d item = true) (ht : item.type = "module") :
    ∃ x ∈ d.modules, x.name = item.name := by
  unfold keepMetaDataItem at h
  rw [ht] at h
  simpa [List.any_eq_true] using h

lemma keep_of_type_pipe (d : DependenciesData) (item : MetaDataItem)
    (h : keepMetaDataItem d item = true) (ht : item.type = "pipe") :
    ∃ x ∈ d.pipes, x.name = item.name := by
  unfold keepMetaDataItem at h
  rw [ht] at h
  simpa [List.any_eq_true] using h

/-- The four filter guarantees for one retained metadata item. -/
def KindGuarantee (d : DependenciesData) (item : MetaDataItem) : Prop :=
  (item.type = "directive" → ∃ x ∈ d.directives, x.name = item.name)
    ∧ (item.type = "component" → ∃ x ∈ d.components, x.name = item.name)
    ∧ (item.type = "module" → ∃ x ∈ d.modules, x.name = item.name)
    ∧ (item.type = "pipe" → ∃ x ∈ d.pipes, x.name = item.name)

lemma kindGuarantee_of_keep (d : DependenciesData) (item : MetaDataItem)
    (h : keepMetaDataItem d item = true) : KindGuarantee d item :=
  ⟨keep_of_type_directive d item h, keep_of_type_component d item h,
    keep_of_type_module d item h, keep_of_type_pipe d item h⟩

/-- C8 as amended: after `prepareModules` on any current collection, a
retained declaration/bootstrap/import/export reference of one of the four
recognized kinds (directive, component, module, pipe) always has a
same-named entry of the matching kind in the collection, and every
retained provider has a same-named injectable; a reference of any other
kind, however, is retained unconditionally (the `default: return true`
branch), so the claim holds only for the recognized kinds. -/
theorem prepareModules_filter_guarantees (env : PrepareEnv)
    (d : DependenciesData) (m : NgModule)
    (hm : m ∈ (prepareModules env d).1) :
    (∀ item ∈ m.declarations ++ m.bootstrap ++ m.ngImports ++ m.ngExports,
        KindGuarantee d item)
      ∧ (∀ p ∈ m.providers, ∃ x ∈ d.injectables, x.name = p.name)
      ∧ (∀ m0 ∈ d.modules, ∀ item ∈ m0.declarations,
          item.type ≠ "directive" → item.type ≠ "component" →
          item.type ≠ "module" → item.type ≠ "pipe" →
          item ∈ (filterModule d m0).declarations) := by
  unfold prepareModules at hm
  simp only [List.map_map, List.mem_map] at hm
  obtain ⟨m0, hm0, hm0eq⟩ := hm
  have hdecl : m.declarations = (filterModule d m0).declarations := by
    rw [← hm0eq]
    exact withReadmeM_declarations env _
  have hboot : m.bootstrap = (filterModule d m0).bootstrap := by
    rw [← hm0eq]
    exact withReadmeM_bootstrap env _
  have himp : m.ngImports = (filterModule d m0).ngImports := by
    rw [← hm0eq]
    exact withReadmeM_ngImports env _
  have hexp : m.ngExports = (filterModule d m0).ngExports := by
    rw [← hm0eq]
    exact withReadmeM_ngExports env _
  have hprov : m.providers = (filterModule d m0).providers := by
    rw [← hm0eq]
    exact withReadmeM_providers env _
  refine ⟨?_, ?_, ?_⟩
  · intro item hitem
    rw [hdecl, hboot, himp, hexp] at hitem
    simp only [filterModule, List.mem_append, List.mem_filter] at hitem
    have hkeep : keepMetaDataItem d item = true := by
      rcases hitem with ((h | h) | h) | h
      · exact h.2
      · exact h.2
      · exact h.2
      · exact h.2
    exact kindGuarantee_of_keep d item hkeep
  · intro p hp
    rw [hprov] at hp
    simp only [filterModule, List.mem_filter] at hp
    have := hp.2
    simpa [List.any_eq_true] using this
  · intro m0x _ item hitem h1 h2 h3 h4
    have hkeep : keepMetaDataItem d item = true := by
      unfold keepMetaDataItem
      split
      · exact absurd (by assumption) h1
      · exact absurd (by assumption) h2
      · exact absurd (by assumption) h3
      · exact absurd (by assumption) h4
      · rfl
    simp only [filterModule]
    exact List.mem_filter.mpr ⟨hitem, hkeep⟩

/-- Module used by the C8 witness: one declaration of each recognized
kind, plus one provider. -/
def mC8w : NgModule :=
  { name := "MW", id := "mw", file := "mw.ts",
    declarations := [{ name := "C", type := "component" }],
    ngImports := [{ name := "MW", type := "module" }],
    providers := [{ name := "S", type := "injectable" }] }

/-- Collection used by the C8 witness. -/
def dC8w : DependenciesData :=
  { modules := [mC8w],
    components := [{ name := "C", id := "c", file := "c.ts" }],
    injectables := [{ name := "S", id := "s", file := "s.ts" }] }

/-- Witness for the amended C8 at a concrete collection. -/
theorem prepareModules_filter_guarantees_witness :
    (mC8w ∈ (prepareModules penvTrivial dC8w).1)
      ∧ ((∀ item ∈ mC8w.declarations ++ mC8w.bootstrap ++ mC8w.ngImports ++
            mC8w.ngExports, KindGuarantee dC8w item)
        ∧ (∀ p ∈ mC8w.providers, ∃ x ∈ dC8w.injectables, x.name = p.name)
        ∧ (∀ m0 ∈ dC8w.modules, ∀ item ∈ m0.declarations,
            item.type ≠ "directive" → item.type ≠ "component" →
            item.type ≠ "module" → item.type ≠ "pipe" →
            item ∈ (filterModule dC8w m0).declarations)) :=
  ⟨by decide,
    prepareModules_filter_guarantees penvTrivial dC8w mC8w (by decide)⟩

/-! ## Claim C6 -/

/-- Prepare environment of the C6 scenario: no readmes, and the template
file of every component is missing (`existsSync` is false). -/
def penvC6 : PrepareEnv :=
  { hasNeighbourReadmeFile := fun _ => false,
    readNeighbourReadmeFile := fun _ => "",
    markedOf := fun sx => sx,
    resolvePath := fun a b => a ++ "/" ++ b,
    existsSync := fun _ => false,
    fileGet := fun _ => none,
    routesIndexOk := true }

/-- Component with an unresolvable external template reference. -/
def cBad : Comp :=
  { name := "bad", id := "bad", file := "src/bad.ts", templateUrl := "bad.html" }

/-- Component with no template reference, listed after `cBad`. -/
def cGood : Comp := { name := "good", id := "good", file := "src/good.ts" }

/-- C6 evaluated at the failing input: with `cBad`'s template file missing,
`handleTemplateurl` logs and returns a promise that never settles, so the
`prepareComponents` loop stops: `cBad`'s page is still planned (it was
pushed before template resolution) with no inline template data, but
`cGood` — the remaining component — is never prepared and the
`prepareComponents` promise never resolves, stalling the whole prepare
sequence.  This contradicts the claim that the remaining components still
complete. -/
theorem prepareComponents_missing_template_stalls :
    (prepareComponentsLoop penvC6 { comps := [], pages := [], log := [] }
        [cBad, cGood]).isDone = false
      ∧ (prepareComponentsLoop penvC6 { comps := [], pages := [], log := [] }
          [cBad, cGood]).state.pages = [componentPage cBad]
      ∧ (prepareComponentsLoop penvC6 { comps := [], pages := [], log := [] }
          [cBad, cGood]).state.comps = [cBad]
      ∧ cBad.templateData = none
      ∧ (prepareComponentsLoop penvC6 { comps := [], pages := [], log := [] }
          [cBad, cGood]).state.log = ["Cannot read template for bad"] := by
  refine ⟨rfl, rfl, rfl, rfl, rfl⟩

/-! ## Graph-stage lemmas -/

/-- Whether the per-module graph steps of one module both succeed. -/
def moduleGraphOk (env : GraphEnv) (m : GModule) : Prop :=
  env.renderModuleOk m.file = true ∧
    (env.readModuleGraph
      (graphModulePath env.output m.name ++ "/dependencies.svg")).isSome = true

/-- Whether every module needing a graph has both steps succeed. -/
def GraphsAllOk (env : GraphEnv) (ms : List GModule) : Prop :=
  ∀ m ∈ ms, hasRelations (env.rawModule m.name) = true → moduleGraphOk env m

/-- Names of the modules for which `processGraphs` invokes the renderer
(those with at least one non-empty raw relation list), in order. -/
def neededNames (env : GraphEnv) (ms : List GModule) : List String :=
  (ms.filter (fun m => hasRelations (env.rawModule m.name))).map
    (fun m => m.name)

lemma graphLoop_disableMainGraph (env : GraphEnv) (st : GraphState)
    (ms : List GModule) :
    ((graphLoop env st ms).1).disableMainGraph = st.disableMainGraph := by
  induction ms generalizing st with
  | nil => rfl
  | cons m rest ih =>
    simp only [graphLoop]
    split
    · split
      · split
        · rw [ih]
        · rfl
      · rfl
    · rw [ih]

lemma graphLoop_mainRenderCalls (env : GraphEnv) (st : GraphState)
    (ms : List GModule) :
    ((graphLoop env st ms).1).mainRenderCalls = st.mainRenderCalls := by
  induction ms generalizing st with
  | nil => rfl
  | cons m rest ih =>
    simp only [graphLoop]
    split
    · split
      · split
        · rw [ih]
        · rfl
      · rfl
    · rw [ih]

lemma graphLoop_not_raised (env : GraphEnv) (st : GraphState)
    (ms : List GModule) : ((graphLoop env st ms).2).isRaised = false := by
  induction ms generalizing st with
  | nil => rfl
  | cons m rest ih =>
    simp only [graphLoop]
    split
    · split
      · split
        · exact ih _
        · rfl
      · rfl
    · exact ih _

lemma graphLoop_log_mono (env : GraphEnv) (st : GraphState)
    (ms : List GModule) :
    st.log.length ≤ ((graphLoop env st ms).1).log.length := by
  induction ms generalizing st with
  | nil => exact le_refl _
  | cons m rest ih =>
    simp only [graphLoop]
    by_cases hrel : hasRelations (env.rawModule m.name) = true
    · rw [if_pos hrel]
      by_cases hrd : env.renderModuleOk m.file = true
      · rw [if_pos hrd]
        rcases hread : env.readModuleGraph
            (graphModulePath env.output m.name ++ "/dependencies.svg") with _ | data
        · simp
        · exact ih { st with
            moduleRenderCalls := st.moduleRenderCalls ++ [m.name],
            modulesDone := st.modulesDone ++ [{ m with graph := some data }] }
      · rw [if_neg hrd]
        simp
    · rw [if_neg hrel]
      exact ih { st with modulesDone := st.modulesDone ++ [m] }

lemma graphLoop_halted_log (env : GraphEnv) (st : GraphState)
    (ms : List GModule) (h : (graphLoop env st ms).2 = StageEnd.halted) :
    st.log.length < ((graphLoop env st ms).1).log.length := by
  induction ms generalizing st with
  | nil => exact absurd h (by simp [graphLoop])
  | cons m rest ih =>
    simp only [graphLoop] at h ⊢
    by_cases hrel : hasRelations (env.rawModule m.name) = true
    · rw [if_pos hrel] at h ⊢
      by_cases hrd : env.renderModuleOk m.file = true
      · rw [if_pos hrd] at h ⊢
        rcases hread : env.readModuleGraph
            (graphModulePath env.output m.name ++ "/dependencies.svg") with _ | data
        · simp
        · rw [hread] at h
          exact ih { st with
            moduleRenderCalls := st.moduleRenderCalls ++ [m.name],
            modulesDone := st.modulesDone ++ [{ m with graph := some data }] } h
      · rw [if_neg hrd]
        simp
    · rw [if_neg hrel] at h ⊢
      exact ih { st with modulesDone := st.modulesDone ++ [m] } h

lemma graphLoop_proceeded_iff (env : GraphEnv) (st : GraphState)
    (ms : List GModule) :
    (graphLoop env st ms).2 = StageEnd.proceeded ↔ GraphsAllOk env ms := by
  induction ms generalizing st with
  | nil => simp [graphLoop, GraphsAllOk]
  | cons m rest ih =>
    simp only [graphLoop]
    by_cases hrel : hasRelations (env.rawModule m.name) = true
    · rw [if_pos hrel]
      by_cases hrd : env.renderModuleOk m.file = true
      · rw [if_pos hrd]
        rcases hread : env.readModuleGraph
            (graphModulePath env.output m.name ++ "/dependencies.svg") with _ | data
        · simp only [GraphsAllOk]
          constructor
          · intro hcontra
            exact absurd hcontra (by simp)
          · intro hall
            have h2 := (hall m (List.mem_cons_self m rest) hrel).2
            rw [hread] at h2
            simp at h2
        · constructor
          · intro hp mx hmx hxrel
            rcases List.mem_cons.mp hmx with hmx | hmx
            · subst hmx
              exact ⟨hrd, by rw [hread]; rfl⟩
            · exact (ih { st with
                moduleRenderCalls := st.moduleRenderCalls ++ [m.name],
                modulesDone := st.modulesDone ++ [{ m with graph := some data }] }).mp
                hp mx hmx hxrel
          · intro hall
            exact (ih { st with
              moduleRenderCalls := st.moduleRenderCalls ++ [m.name],
              modulesDone := st.modulesDone ++ [{ m with graph := some data }] }).mpr
              (fun mx hmx hxrel => hall mx (List.mem_cons_of_mem m hmx) hxrel)
      · rw [if_neg hrd]
        simp only [GraphsAllOk]
        constructor
        · intro hcontra
          exact absurd hcontra (by simp)
        · intro hall
          exact absurd (hall m (List.mem_cons_self m rest) hrel).1 hrd
    · rw [if_neg hrel]
      constructor
      · intro hp mx hmx hxrel
        rcases List.mem_cons.mp hmx with hmx | hmx
        · subst hmx
          exact absurd hxrel hrel
        · exact (ih { st with modulesDone := st.modulesDone ++ [m] }).mp hp mx hmx hxrel
      · intro hall
        exact (ih { st with modulesDone := st.modulesDone ++ [m] }).mpr
          (fun mx hmx hxrel => hall mx (List.mem_cons_of_mem m hmx) hxrel)

lemma graphLoop_calls_of_ok (env : GraphEnv) (st : GraphState)
    (ms : List GModule) (hok : GraphsAllOk env ms) :
    ((graphLoop env st ms).1).moduleRenderCalls =
      st.moduleRenderCalls ++ neededNames env ms := by
  induction ms generalizing st with
  | nil => simp [graphLoop, neededNames]
  | cons m rest ih =>
    have hrest : GraphsAllOk env rest :=
      fun mx hmx hxrel => hok mx (List.mem_cons_of_mem m hmx) hxrel
    simp only [graphLoop]
    by_cases hrel : hasRelations (env.rawModule m.name) = true
    · have hmok := hok m (List.mem_cons_self m rest) hrel
      rw [if_pos hrel, if_pos hmok.1]
      rcases hread : env.readModuleGraph
          (graphModulePath env.output m.name ++ "/dependencies.svg") with _ | data
      · have h2 := hmok.2
        rw [hread] at h2
        simp at h2
      · rw [ih { st with
          moduleRenderCalls := st.moduleRenderCalls ++ [m.name],
          modulesDone := st.modulesDone ++ [{ m with graph := some data }] } hrest]
        simp [neededNames, hrel, List.append_assoc]
    · rw [if_neg hrel]
      rw [ih { st with modulesDone := st.modulesDone ++ [m] } hrest]
      simp [neededNames, hrel]

lemma graphLoop_calls_take (env : GraphEnv) (st : GraphState)
    (ms : List GModule) :
    ∃ k, ((graphLoop env st ms).1).moduleRenderCalls =
      st.moduleRenderCalls ++ (neededNames env ms).take k := by
  induction ms generalizing st with
  | nil => exact ⟨0, by simp [graphLoop, neededNames]⟩
  | cons m rest ih =>
    simp only [graphLoop]
    by_cases hrel : hasRelations (env.rawModule m.name) = true
    · rw [if_pos hrel]
      by_cases hrd : env.renderModuleOk m.file = true
      · rw [if_pos hrd]
        rcases hread : env.readModuleGraph
            (graphModulePath env.output m.name ++ "/dependencies.svg") with _ | data
        · exact ⟨1, by simp [neededNames, hrel]⟩
        · obtain ⟨k, hk⟩ := ih { st with
            moduleRenderCalls := st.moduleRenderCalls ++ [m.name],
            modulesDone := st.modulesDone ++ [{ m with graph := some data }] }
          refine ⟨k + 1, ?_⟩
          rw [hk]
          simp [neededNames, hrel, List.append_assoc]
      · rw [if_neg hrd]
        exact ⟨1, by simp [neededNames, hrel]⟩
    · rw [if_neg hrel]
      obtain ⟨k, hk⟩ := ih { st with modulesDone := st.modulesDone ++ [m] }
      refine ⟨k, ?_⟩
      rw [hk]
      simp [neededNames, hrel]

/-! ## Claim C3 -/

/-- Raw module with one declaration, so that `hasRelations` holds. -/
def rawWithDecl (n : String) : NgModule :=
  { name := n, id := n, file := n ++ ".ts",
    declarations := [{ name := "D", type := "component" }] }

/-- Graph environment of the C3 scenario: every module needs a graph, the
whole-project graph succeeds, and the per-module render fails exactly for
the file "B.ts". -/
def grenvC3 : GraphEnv :=
  { output := "doc/",
    rawModule := fun n => rawWithDecl n,
    renderModuleOk := fun f => f != "B.ts",
    readModuleGraph := fun _ => some "svg",
    renderMainOk := true,
    readMainGraph := some "main-svg" }

/-- Module "A" (graph succeeds). -/
def gA : GModule := { name := "A", file := "A.ts" }

/-- Module "B" (graph render fails). -/
def gB : GModule := { name := "B", file := "B.ts" }

/-- Module "C" (after the failure). -/
def gC : GModule := { name := "C", file := "C.ts" }

/-- Counterexample to C3: when module "B"'s graph render fails, the failure
is logged and the stage halts — the remaining module "C" is never rendered
and `processPages` is never invoked — but nothing propagates to the
orchestrator: the handler only logs, no rejection is raised
(`isRaised = false`), so the claim's "propagates to the caller" part is
false; the build simply stalls. -/
theorem processGraphs_module_failure_not_propagated_cex :
    (processGraphs grenvC3 graphState0 false [gA, gB, gC]).2 = StageEnd.halted
      ∧ ((processGraphs grenvC3 graphState0 false [gA, gB, gC]).2).isRaised = false
      ∧ ((processGraphs grenvC3 graphState0 false [gA, gB, gC]).1).moduleRenderCalls
          = ["A", "B"]
      ∧ ((processGraphs grenvC3 graphState0 false [gA, gB, gC]).1).log
          = ["module graph generation error"] := by
  refine ⟨rfl, rfl, rfl, rfl⟩

/-- C3 as amended: with graphs enabled, a graph render or read failure for
any single module is logged and halts the build — the remainder of the
graph stage is skipped (the per-module renderer was invoked only for a
prefix of the modules needing graphs) and `processPages` (hence the
render, index and finalization stages) is never invoked — but the failure
is not propagated: the stage can only end by proceeding or by halting
silently, never by raising a rejection towards the orchestrator. -/
theorem processGraphs_module_failure_halts (env : GraphEnv)
    (st : GraphState) (modules : List GModule) :
    ((processGraphs env st false modules).2).isRaised = false
      ∧ ((processGraphs env st false modules).2 = StageEnd.proceeded ↔
          GraphsAllOk env modules)
      ∧ ((processGraphs env st false modules).2 = StageEnd.halted →
          st.log.length < ((processGraphs env st false modules).1).log.length)
      ∧ (∃ k, ((processGraphs env st false modules).1).moduleRenderCalls =
          st.moduleRenderCalls ++ (neededNames env modules).take k) := by
  have hbody : ∀ st1 : GraphState,
      st.log.length ≤ st1.log.length →
      st1.moduleRenderCalls = st.moduleRenderCalls →
      ((graphLoop env st1 modules).2).isRaised = false
        ∧ ((graphLoop env st1 modules).2 = StageEnd.proceeded ↔
            GraphsAllOk env modules)
        ∧ ((graphLoop env st1 modules).2 = StageEnd.halted →
            st.log.length < ((graphLoop env st1 modules).1).log.length)
        ∧ (∃ k, ((graphLoop env st1 modules).1).moduleRenderCalls =
            st.moduleRenderCalls ++ (neededNames env modules).take k) := by
    intro st1 hlog hcalls
    refine ⟨graphLoop_not_raised env st1 modules,
      graphLoop_proceeded_iff env st1 modules, ?_, ?_⟩
    · intro hh
      exact lt_of_le_of_lt hlog (graphLoop_halted_log env st1 modules hh)
    · obtain ⟨k, hk⟩ := graphLoop_calls_take env st1 modules
      exact ⟨k, by rw [hk, hcalls]⟩
  simp only [processGraphs, Bool.false_eq_true, if_false]
  by_cases hmain : env.renderMainOk = true
  · rw [if_pos hmain]
    rcases hread : env.readMainGraph with _ | data
    · exact hbody _ (by simp) rfl
    · exact hbody _ (by simp) rfl
  · rw [if_neg hmain]
    exact hbody _ (by simp) rfl

/-- Witness for the amended C3 at the C3 scenario (one failing module). -/
theorem processGraphs_module_failure_halts_witness :
    (((processGraphs grenvC3 graphState0 false [gA, gB, gC]).2).isRaised = false
        ∧ ((processGraphs grenvC3 graphState0 false [gA, gB, gC]).2 =
              StageEnd.proceeded ↔ GraphsAllOk grenvC3 [gA, gB, gC])
        ∧ ((processGraphs grenvC3 graphState0 false [gA, gB, gC]).2 =
              StageEnd.halted →
            graphState0.log.length <
              ((processGraphs grenvC3 graphState0 false [gA, gB, gC]).1).log.length)
        ∧ (∃ k, ((processGraphs grenvC3 graphState0 false [gA, gB, gC]).1).moduleRenderCalls =
            graphState0.moduleRenderCalls ++
              (neededNames grenvC3 [gA, gB, gC]).take k))
      ∧ (processGraphs grenvC3 graphState0 false [gA, gB, gC]).2 = StageEnd.halted :=
  ⟨processGraphs_module_failure_halts grenvC3 graphState0 [gA, gB, gC], rfl⟩

/-! ## Claim C7 -/

/-- Graph environment for the first C7 build: the whole-project graph
render fails, every per-module step succeeds. -/
def grenvC7a : GraphEnv :=
  { output := "doc/",
    rawModule := fun n => rawWithDecl n,
    renderModuleOk := fun _ => true,
    readModuleGraph := fun _ => some "svg",
    renderMainOk := false,
    readMainGraph := none }

/-- Graph environment for the second C7 build: everything succeeds. -/
def grenvC7b : GraphEnv :=
  { output := "doc/",
    rawModule := fun n => rawWithDecl n,
    renderModuleOk := fun _ => true,
    readModuleGraph := fun _ => some "svg",
    renderMainOk := true,
    readMainGraph := some "main-svg" }

/-- Counterexample to C7's "disabled for this build only": after a build in
which the whole-project graph render fails, `disableMainGraph` is set; the
source never resets it, so a subsequent build in the same process (watch
mode reuses the same configuration) in which the whole-project render
would succeed still has the whole-project graph disabled.  The claim
implies the flag holds for the failing build only, i.e. that it would be
false here. -/
theorem processGraphs_disableMainGraph_persists_cex :
    ((processGraphs grenvC7b
        ((processGraphs grenvC7a graphState0 false [gA]).1)
        false [gA]).1).disableMainGraph = true
      ∧ grenvC7b.renderMainOk = true
      ∧ grenvC7b.readMainGraph = some "main-svg" := by
  refine ⟨?_, rfl, rfl⟩
  have h1 : ((processGraphs grenvC7a graphState0 false [gA]).1).disableMainGraph
      = true := by
    rw [show (processGraphs grenvC7a graphState0 false [gA]).1 =
      (graphLoop grenvC7a { graphState0 with
        mainRenderCalls := 1,
        disableMainGraph := true,
        log := ["main graph generation error"] } [gA]).1 from rfl]
    rw [graphLoop_disableMainGraph]
  rw [show (processGraphs grenvC7b
      ((processGraphs grenvC7a graphState0 false [gA]).1) false [gA]).1 =
    (graphLoop grenvC7b { (processGraphs grenvC7a graphState0 false [gA]).1 with
      mainRenderCalls :=
        ((processGraphs grenvC7a graphState0 false [gA]).1).mainRenderCalls + 1,
      mainGraph := some "main-svg" } [gA]).1 from rfl]
  rw [graphLoop_disableMainGraph]
  exact h1

/-- C7 as amended: with graphs enabled, the whole-project renderer is
invoked exactly once per `processGraphs` call; if the whole-project render
fails, the whole-project graph is disabled — for the rest of the process,
since nothing resets the flag — and the stage still proceeds to the module
loop; when every needed per-module step succeeds, the per-module renderer
is invoked exactly once for each module with at least one non-empty raw
relation list (in order) and zero times for all-empty modules, and the
stage proceeds to `processPages`. -/
theorem processGraphs_main_once_and_module_calls (env : GraphEnv)
    (st : GraphState) (modules : List GModule) :
    ((processGraphs env st false modules).1).mainRenderCalls =
        st.mainRenderCalls + 1
      ∧ (env.renderMainOk = false →
          ((processGraphs env st false modules).1).disableMainGraph = true)
      ∧ (st.disableMainGraph = true →
          ((processGraphs env st false modules).1).disableMainGraph = true)
      ∧ (GraphsAllOk env modules →
          ((processGraphs env st false modules).1).moduleRenderCalls =
              st.moduleRenderCalls ++ neededNames env modules
            ∧ (processGraphs env st false modules).2 = StageEnd.proceeded) := by
  have hbody : ∀ st1 : GraphState,
      st1.mainRenderCalls = st.mainRenderCalls + 1 →
      st1.moduleRenderCalls = st.moduleRenderCalls →
      ((graphLoop env st1 modules).1).mainRenderCalls = st.mainRenderCalls + 1
        ∧ (st1.disableMainGraph = true →
            ((graphLoop env st1 modules).1).disableMainGraph = true)
        ∧ (GraphsAllOk env modules →
            ((graphLoop env st1 modules).1).moduleRenderCalls =
                st.moduleRenderCalls ++ neededNames env modules
              ∧ (graphLoop env st1 modules).2 = StageEnd.proceeded) := by
    intro st1 hmain hcalls
    refine ⟨?_, ?_, ?_⟩
    · rw [graphLoop_mainRenderCalls]
      exact hmain
    · intro hd
      rw [graphLoop_disableMainGraph]
      exact hd
    · intro hok
      refine ⟨?_, (graphLoop_proceeded_iff env st1 modules).mpr hok⟩
      rw [graphLoop_calls_of_ok env st1 modules hok, hcalls]
  simp only [processGraphs, Bool.false_eq_true, if_false]
  by_cases hmain : env.renderMainOk = true
  · rw [if_pos hmain]
    rcases hread : env.readMainGraph with _ | data
    · have h := hbody { st with
        mainRenderCalls := st.mainRenderCalls + 1,
        disableMainGraph := true,
        log := st.log ++ ["Error during main graph reading : "] } rfl rfl
      exact ⟨h.1, fun hc => absurd hmain (by rw [hc]; simp), fun _ => h.2.1 rfl,
        h.2.2⟩
    · have h := hbody { st with
        mainRenderCalls := st.mainRenderCalls + 1,
        mainGraph := some data } rfl rfl
      exact ⟨h.1, fun hc => absurd hmain (by rw [hc]; simp),
        fun hd => h.2.1 hd, h.2.2⟩
  · rw [if_neg hmain]
    have h := hbody { st with
      mainRenderCalls := st.mainRenderCalls + 1,
      disableMainGraph := true,
      log := st.log ++ ["main graph generation error"] } rfl rfl
    exact ⟨h.1, fun _ => h.2.1 rfl, fun _ => h.2.1 rfl, h.2.2⟩

/-- Module whose raw relation lists are all empty. -/
def gEmpty : GModule := { name := "empty", file := "empty.ts" }

/-- Module whose raw module has declarations. -/
def gFull : GModule := { name := "full", file := "full.ts" }

/-- Graph environment of the C7 witness: the whole-project render fails,
module "full" has relations, module "empty" has none, every per-module
step succeeds. -/
def grenvC7w : GraphEnv :=
  { output := "doc/",
    rawModule := fun n =>
      if n == "full" then rawWithDecl n
      else { name := n, id := n, file := n ++ ".ts" },
    renderModuleOk := fun _ => true,
    readModuleGraph := fun _ => some "svg",
    renderMainOk := false,
    readMainGraph := none }

/-- Witness for the amended C7: a build whose whole-project render fails
and whose two modules are one all-empty and one with declarations — the
per-module renderer runs exactly once, for the non-empty module. -/
theorem processGraphs_main_once_and_module_calls_witness :
    (grenvC7w.renderMainOk = false ∧ GraphsAllOk grenvC7w [gEmpty, gFull])
      ∧ (((processGraphs grenvC7w graphState0 false [gEmpty, gFull]).1).mainRenderCalls
            = graphState0.mainRenderCalls + 1
        ∧ (grenvC7w.renderMainOk = false →
            ((processGraphs grenvC7w graphState0 false [gEmpty, gFull]).1).disableMainGraph = true)
        ∧ (graphState0.disableMainGraph = true →
            ((processGraphs grenvC7w graphState0 false [gEmpty, gFull]).1).disableMainGraph = true)
        ∧ (GraphsAllOk grenvC7w [gEmpty, gFull] →
            ((processGraphs grenvC7w graphState0 false [gEmpty, gFull]).1).moduleRenderCalls =
                graphState0.moduleRenderCalls ++ neededNames grenvC7w [gEmpty, gFull]
              ∧ (processGraphs grenvC7w graphState0 false [gEmpty, gFull]).2 =
                  StageEnd.proceeded))
      ∧ neededNames grenvC7w [gEmpty, gFull] = ["full"] :=
  ⟨⟨rfl, by intro m hm hrel; exact ⟨rfl, rfl⟩⟩,
    processGraphs_main_once_and_module_calls grenvC7w graphState0 [gEmpty, gFull],
    rfl⟩

/-! ## Claim C2 -/

/-- Collection with one pipe and nothing else. -/
def dC2 : DependenciesData :=
  { pipes := [{ name := "P", id := "p", file := "p.ts" }] }

/-- Counterexample to C2: on a crawl result with one pipe and nothing else,
the plan completes and its only root (depth-0) page is "modules" — there is
no "components" root page (the claim requires one unconditionally) and no
"pipes" root page (the claim requires one since the pipes collection is
non-empty).  The source never pushes root pages for components, pipes,
classes or interfaces. -/
theorem prepareEverything_no_components_root_page_cex :
    (prepareEverything penvTrivial dC2).isDone = true
      ∧ (((prepareEverything penvTrivial dC2).state.pages.filter
            (fun p => p.depth == 0)).map (fun p => p.id)) = ["modules"]
      ∧ dC2.pipes ≠ [] := by
  refine ⟨rfl, rfl, by decide⟩

lemma componentPage_withReadmeC (env : PrepareEnv) (c : Comp) :
    componentPage (withReadmeC env c) = componentPage c := by
  unfold withReadmeC componentPage
  split <;> rfl

lemma modulePage_withReadmeM_filter (env : PrepareEnv) (d : DependenciesData)
    (m : NgModule) :
    modulePage (withReadmeM env (filterModule d m)) = modulePage m := by
  unfold withReadmeM filterModule modulePage
  split <;> rfl

lemma itemPage_withReadme (env : PrepareEnv) (ps ctx : String) (e : Entry) :
    itemPage ps ctx (withReadme env e) = itemPage ps ctx e := by
  unfold withReadme itemPage
  split <;> rfl

lemma prepareModules_pages (env : PrepareEnv) (d : DependenciesData) :
    (prepareModules env d).2 = modulesRootPage :: d.modules.map modulePage := by
  unfold prepareModules
  simp [List.map_map, Function.comp, modulePage_withReadmeM_filter]

lemma prepareItems_pages (env : PrepareEnv) (ps ctx : String)
    (es : List Entry) :
    (prepareItems env ps ctx es).2 = es.map (itemPage ps ctx) := by
  unfold prepareItems
  simp [List.map_map, Function.comp, itemPage_withReadme]

lemma prepareComponentsLoop_done_pages (env : PrepareEnv) (st : CompState)
    (cl : List Comp) (st' : CompState)
    (h : prepareComponentsLoop env st cl = CompResult.done st') :
    st'.pages = st.pages ++ cl.map componentPage := by
  induction cl generalizing st with
  | nil =>
    simp only [prepareComponentsLoop] at h
    injection h with h2
    rw [← h2]
    simp
  | cons c rest ih =>
    simp only [prepareComponentsLoop] at h
    by_cases htpl : (withReadmeC env c).templateUrl.length > 0
    · rw [if_pos htpl] at h
      rcases htr : handleTemplateurl env (withReadmeC env c) with c2 | _ | _
      · rw [htr] at h
        have := ih _ h
        rw [this]
        simp [componentPage_withReadmeC]
      · rw [htr] at h
        exact absurd h (by simp)
      · rw [htr] at h
        exact absurd h (by simp)
    · rw [if_neg htpl] at h
      have := ih _ h
      rw [this]
      simp [componentPage_withReadmeC]

lemma mem_if_nil {c : Prop} [Decidable c] (l : List Page) (p : Page) :
    p ∈ (if c then l else []) ↔ c ∧ p ∈ l := by
  split <;> simp [*]

lemma exists_page_of_guarded_map {α : Type} (C : Prop) (l : List α)
    (f : α → Page) (q : Page → Prop) :
    (∃ x, (C ∧ ∃ a ∈ l, f a = x) ∧ q x) ↔ C ∧ ∃ a ∈ l, q (f a) := by
  constructor
  · rintro ⟨x, ⟨hc, a, ha, rfl⟩, hq⟩
    exact ⟨hc, a, ha, hq⟩
  · rintro ⟨hc, a, ha, hq⟩
    exact ⟨f a, ⟨hc, a, ha, rfl⟩, hq⟩

lemma exists_page_of_guarded_single (C : Prop) (v : Page) (q : Page → Prop) :
    (∃ x, (C ∧ x = v) ∧ q x) ↔ C ∧ q v := by
  constructor
  · rintro ⟨x, ⟨hc, rfl⟩, hq⟩
    exact ⟨hc, hq⟩
  · rintro ⟨hc, hq⟩
    exact ⟨v, ⟨hc, rfl⟩, hq⟩

lemma exists_page_of_guarded2_single (C D : Prop) (v : Page)
    (q : Page → Prop) :
    (∃ x, (C ∧ D ∧ x = v) ∧ q x) ↔ (C ∧ D) ∧ q v := by
  constructor
  · rintro ⟨x, ⟨hc, hd, rfl⟩, hq⟩
    exact ⟨⟨hc, hd⟩, hq⟩
  · rintro ⟨⟨hc, hd⟩, hq⟩
    exact ⟨v, ⟨hc, hd, rfl⟩, hq⟩

lemma exists_mem_iff_ne_nil {α : Type} (l : List α) : (∃ a, a ∈ l) ↔ l ≠ [] := by
  constructor
  · rintro ⟨a, ha⟩
    exact List.ne_nil_of_mem ha
  · intro hne
    rcases l with _ | ⟨x, xs⟩
    · exact absurd rfl hne
    · exact ⟨x, List.mem_cons_self x xs⟩

lemma filter_depth0_itemPages (ps ctx : String) (es : List Entry) :
    ((es.map (itemPage ps ctx)).filter (fun p => p.depth == 0)) = [] := by
  induction es with
  | nil => rfl
  | cons e rest ih => simp [itemPage, ih]

lemma filter_depth0_modulePages (ms : List NgModule) :
    ((ms.map modulePage).filter (fun p => p.depth == 0)) = [] := by
  induction ms with
  | nil => rfl
  | cons m rest ih => simp [modulePage, ih]

lemma filter_depth0_componentPages (cs : List Comp) :
    ((cs.map componentPage).filter (fun p => p.depth == 0)) = [] := by
  induction cs with
  | nil => rfl
  | cons cx rest ih => simp [componentPage, ih]

lemma filter_depth0_misc (m : Miscellaneous) :
    ((prepareMiscellaneous m).filter (fun p => p.depth == 0)) = [] := by
  unfold prepareMiscellaneous
  split_ifs <;> rfl

lemma filter_depth0_if_itemPages (c : Prop) [Decidable c] (ps ctx : String)
    (es : List Entry) :
    ((if c then es.map (itemPage ps ctx) else []).filter
      (fun p => p.depth == 0)) = [] := by
  split
  · exact filter_depth0_itemPages ps ctx es
  · rfl

lemma filter_depth0_if_misc (c : Prop) [Decidable c] (m : Miscellaneous) :
    ((if c then prepareMiscellaneous m else []).filter
      (fun p => p.depth == 0)) = [] := by
  split
  · exact filter_depth0_misc m
  · rfl

lemma filter_depth0_if_routes (c : Prop) [Decidable c] :
    ((if c then [routesRootPage] else []).filter (fun p => p.depth == 0)) =
      (if c then [routesRootPage] else []) := by
  split <;> rfl

lemma filter_depth0_modulesSegment (ms : List NgModule) :
    ((modulesRootPage :: ms.map modulePage).filter (fun p => p.depth == 0)) =
      [modulesRootPage] := by
  rw [List.filter_cons]
  simp [modulesRootPage, filter_depth0_modulePages]

/-- The fully evaluated page list of a completed `prepareEverything` run. -/
lemma prepareEverything_done_pages (env : PrepareEnv) (d : DependenciesData)
    (st : PlanState) (h : prepareEverything env d = PlanResult.done st) :
    st.pages =
      (modulesRootPage :: d.modules.map modulePage) ++
      d.components.map componentPage ++
      (if d.directives.length > 0 then
        d.directives.map (itemPage "directives" "directive") else []) ++
      (if d.injectables.length > 0 then
        d.injectables.map (itemPage "injectables" "injectable") else []) ++
      (if d.routesChildren.length > 0 then [routesRootPage] else []) ++
      (if d.pipes.length > 0 then
        d.pipes.map (itemPage "pipes" "pipe") else []) ++
      (if d.classes.length > 0 then
        d.classes.map (itemPage "classes" "class") else []) ++
      (if d.interfaces.length > 0 then
        d.interfaces.map (itemPage "interfaces" "interface") else []) ++
      (if d.miscellaneous.variablesM.length > 0 ∨
          d.miscellaneous.functions.length > 0 ∨
          d.miscellaneous.typealiases.length > 0 ∨
          d.miscellaneous.enumerations.length > 0 then
        prepareMiscellaneous d.miscellaneous else []) := by
  rcases hcc : prepareComponentsLoop env { comps := [], pages := [], log := [] }
      d.components with cs | cs
  · simp only [prepareEverything, hcc] at h
    by_cases hfail : d.routesChildren.length > 0 ∧ env.routesIndexOk = false
    · rw [if_pos hfail] at h
      exact absurd h (by simp)
    · rw [if_neg hfail] at h
      injection h with h2
      have hcp := prepareComponentsLoop_done_pages env _ d.components cs hcc
      rw [← h2]
      simp only []
      rw [prepareModules_pages, prepareItems_pages, prepareItems_pages,
        prepareItems_pages, prepareItems_pages, prepareItems_pages, hcp]
      simp
  · simp only [prepareEverything, hcc] at h
    exact absurd h (by simp)

set_option maxHeartbeats 2000000 in
/-- C2 as amended: for every crawl result on which the prepare sequence
completes, the planned root (depth-0) pages are exactly "modules"
(unconditional, once) followed by "routes" (exactly when the route tree is
non-empty) — no other section ever gets a root page, in particular neither
components nor a non-empty pipes/classes/interfaces collection — and a
section's item pages are planned exactly when its collection is non-empty
(for miscellaneous: one group page per non-empty sub-collection). -/
theorem prepareEverything_section_pages (env : PrepareEnv)
    (d : DependenciesData) (st : PlanState)
    (h : prepareEverything env d = PlanResult.done st) :
    ((st.pages.filter (fun p => p.depth == 0)).map (fun p => p.id)) =
        "modules" :: (if d.routesChildren.length > 0 then ["routes"] else [])
      ∧ ((∃ p ∈ st.pages, p.context = "module") ↔ d.modules ≠ [])
      ∧ ((∃ p ∈ st.pages, p.context = "component") ↔ d.components ≠ [])
      ∧ ((∃ p ∈ st.pages, p.context = "directive") ↔ d.directives ≠ [])
      ∧ ((∃ p ∈ st.pages, p.context = "injectable") ↔ d.injectables ≠ [])
      ∧ ((∃ p ∈ st.pages, p.context = "pipe") ↔ d.pipes ≠ [])
      ∧ ((∃ p ∈ st.pages, p.context = "class") ↔ d.classes ≠ [])
      ∧ ((∃ p ∈ st.pages, p.context = "interface") ↔ d.interfaces ≠ [])
      ∧ ((∃ p ∈ st.pages, p.context = "miscellaneous-functions") ↔
          d.miscellaneous.functions ≠ [])
      ∧ ((∃ p ∈ st.pages, p.context = "miscellaneous-variables") ↔
          d.miscellaneous.variablesM ≠ [])
      ∧ ((∃ p ∈ st.pages, p.context = "miscellaneous-typealiases") ↔
          d.miscellaneous.typealiases ≠ [])
      ∧ ((∃ p ∈ st.pages, p.context = "miscellaneous-enumerations") ↔
          d.miscellaneous.enumerations ≠ []) := by
  have hp := prepareEverything_done_pages env d st h
  rw [hp]
  constructor
  · simp only [List.filter_append, filter_depth0_modulesSegment,
      filter_depth0_componentPages, filter_depth0_if_itemPages,
      filter_depth0_if_misc, filter_depth0_if_routes]
    split_ifs with hr <;> simp [modulesRootPage, routesRootPage]
  · refine ⟨?_, ?_, ?_, ?_, ?_, ?_, ?_, ?_, ?_, ?_, ?_⟩ <;>
      simp [List.mem_append, mem_if_nil, or_and_right, exists_or,
        modulesRootPage, routesRootPage, modulePage, componentPage,
        itemPage, prepareMiscellaneous, List.length_pos,
        exists_mem_iff_ne_nil, exists_page_of_guarded_map,
        exists_page_of_guarded_single, exists_page_of_guarded2_single,
        and_or_left] <;>
      try tauto

/-- Collection of the C2 witness: one module and one pipe. -/
def dC2w : DependenciesData :=
  { modules := [{ name := "AppModule", id := "app", file := "app.ts" }],
    pipes := [{ name := "P", id := "p", file := "p.ts" }] }

/-- Planner state of the C2 witness run. -/
def stC2w : PlanState := (prepareEverything penvTrivial dC2w).state

/-- Witness for the amended C2 at a concrete crawl result. -/
theorem prepareEverything_section_pages_witness :
    (prepareEverything penvTrivial dC2w = PlanResult.done stC2w)
      ∧ (((stC2w.pages.filter (fun p => p.depth == 0)).map (fun p => p.id)) =
            "modules" ::
              (if dC2w.routesChildren.length > 0 then ["routes"] else [])
        ∧ ((∃ p ∈ stC2w.pages, p.context = "module") ↔ dC2w.modules ≠ [])
        ∧ ((∃ p ∈ stC2w.pages, p.context = "component") ↔ dC2w.components ≠ [])
        ∧ ((∃ p ∈ stC2w.pages, p.context = "directive") ↔ dC2w.directives ≠ [])
        ∧ ((∃ p ∈ stC2w.pages, p.context = "injectable") ↔ dC2w.injectables ≠ [])
        ∧ ((∃ p ∈ stC2w.pages, p.context = "pipe") ↔ dC2w.pipes ≠ [])
        ∧ ((∃ p ∈ stC2w.pages, p.context = "class") ↔ dC2w.classes ≠ [])
        ∧ ((∃ p ∈ stC2w.pages, p.context = "interface") ↔ dC2w.interfaces ≠ [])
        ∧ ((∃ p ∈ stC2w.pages, p.context = "miscellaneous-functions") ↔
            dC2w.miscellaneous.functions ≠ [])
        ∧ ((∃ p ∈ stC2w.pages, p.context = "miscellaneous-variables") ↔
            dC2w.miscellaneous.variablesM ≠ [])
        ∧ ((∃ p ∈ stC2w.pages, p.context = "miscellaneous-typealiases") ↔
            dC2w.miscellaneous.typealiases ≠ [])
        ∧ ((∃ p ∈ stC2w.pages, p.context = "miscellaneous-enumerations") ↔
            dC2w.miscellaneous.enumerations ≠ [])) :=
  ⟨rfl, prepareEverything_section_pages penvTrivial dC2w stC2w rfl⟩

/-! ## Claim C4 -/

/-- Render environment with every write and persist succeeding. -/
def renvAllOk : RenderEnv :=
  { render := fun p => p.name ++ "-html",
    output := "doc/",
    writeOk := fun _ => true,
    persistOk := true,
    persistAdditionalOk := true }

/-- Finalization environment with every copy succeeding and no serving. -/
def fenvAllOk : FinalEnv :=
  { resourcesCopyOk := true, extTheme := false, themeCopyOk := true,
    customFavicon := false, faviconCopyOk := true, serve := false }

/-- Page used by the C4 scenario. -/
def pageA : RenderPage := { name := "a" }

/-- Counterexample to C4: in the root-markdown rebuild path with one page
and a fully successful downstream, `clearUpdatedFiles` runs synchronously
right after `processPages()` is invoked, so the page-settled, index-persist
and finalization events all occur after `filesCleared` — the changed-file
set is cleared before the rebuild's render, index and finalization steps
settle, not after. -/
theorem clearUpdatedFiles_before_settles_cex :
    clearedOnlyAfterSettles
        (rootMarkdownRebuildTrace renvAllOk fenvAllOk [pageA] [] true) = false
      ∧ rootMarkdownRebuildTrace renvAllOk fenvAllOk [pageA] [] true =
          [BEvent.prepDone, BEvent.pagesInvoked, BEvent.filesCleared,
            BEvent.pageSettled "a", BEvent.indexPersisted, BEvent.finalized] := by
  refine ⟨rfl, rfl⟩

lemma resourcesTrace_no_cleared (fenv : FinalEnv) :
    (resourcesTrace fenv).all (fun e => e != BEvent.filesCleared) = true := by
  unfold resourcesTrace
  split <;> rfl

lemma pagesSettleTrace_no_cleared (env : RenderEnv) (fenv : FinalEnv)
    (pages adds : List RenderPage) :
    (pagesSettleTrace env fenv pages adds).all
      (fun e => e != BEvent.filesCleared) = true := by
  unfold pagesSettleTrace resourcesTrace
  split_ifs <;> simp [List.all_eq_true, bne_iff_ne]

lemma graphAsyncTrace_no_cleared (genv : GraphEnv) (gst : GraphState)
    (modules : List GModule) (env : RenderEnv) (fenv : FinalEnv)
    (pages adds : List RenderPage) :
    (graphAsyncTrace genv gst modules env fenv pages adds).all
      (fun e => e != BEvent.filesCleared) = true := by
  unfold graphAsyncTrace
  rcases processGraphs genv gst false modules with ⟨gs, se⟩
  cases se <;> simp [pagesSettleTrace_no_cleared]

/-- C4 as amended: in every watch rebuild path whose preparation step
resolves, the changed-file set is cleared exactly once, synchronously,
before any render/index/finalization settle event of that rebuild (never
after them); when the preparation step rejects, the rejection is logged
and the changed-file set is not cleared at all. -/
theorem clearUpdatedFiles_runs_before_settles (env : RenderEnv)
    (fenv : FinalEnv) (genv : GraphEnv) (gst : GraphState)
    (modules : List GModule) (pages adds : List RenderPage)
    (disableGraph : Bool) :
    (∃ pre post,
        microRebuildTrace env fenv genv gst modules pages adds true disableGraph
            = pre ++ BEvent.filesCleared :: post
          ∧ pre.all (fun e => !settleEvent e) = true
          ∧ post.all (fun e => e != BEvent.filesCleared) = true)
      ∧ (∃ pre post,
          rootMarkdownRebuildTrace env fenv pages adds true =
              pre ++ BEvent.filesCleared :: post
            ∧ pre.all (fun e => !settleEvent e) = true
            ∧ post.all (fun e => e != BEvent.filesCleared) = true)
      ∧ (∃ pre post,
          externalDocsRebuildTrace env fenv pages adds true =
              pre ++ BEvent.filesCleared :: post
            ∧ pre.all (fun e => !settleEvent e) = true
            ∧ post.all (fun e => e != BEvent.filesCleared) = true)
      ∧ (microRebuildTrace env fenv genv gst modules pages adds false
            disableGraph).all (fun e => e != BEvent.filesCleared) = true
      ∧ (rootMarkdownRebuildTrace env fenv pages adds false).all
          (fun e => e != BEvent.filesCleared) = true
      ∧ (externalDocsRebuildTrace env fenv pages adds false).all
          (fun e => e != BEvent.filesCleared) = true := by
  refine ⟨?_, ?_, ?_, rfl, rfl, rfl⟩
  · cases disableGraph
    · exact ⟨[BEvent.prepDone, BEvent.graphsInvoked], _, rfl, rfl,
        graphAsyncTrace_no_cleared genv gst modules env fenv pages adds⟩
    · exact ⟨[BEvent.prepDone, BEvent.graphsInvoked, BEvent.pagesInvoked], _,
        rfl, rfl, pagesSettleTrace_no_cleared env fenv pages adds⟩
  · exact ⟨[BEvent.prepDone, BEvent.pagesInvoked], _, rfl, rfl,
      pagesSettleTrace_no_cleared env fenv pages adds⟩
  · exact ⟨[BEvent.prepDone, BEvent.pagesInvoked], _, rfl, rfl,
      pagesSettleTrace_no_cleared env fenv pages adds⟩

/-! ## Claim C9 -/

/-- Build flags of the C9 counterexample: the prepare sequence rejects. -/
def benvC9 : BuildEnv :=
  { exportDefault := true, exportSupported := true, exportOk := true,
    prepOk := false, disableGraph := true }

/-- Counterexample to C9: a run that ends through the error path of
`prepareEverything` (its `promiseSequential` rejects; the `.catch` only
logs) never reaches either of the two `endCallback` call sites, so the
process-level fatal-error listeners are not removed at the end of that
run — contradicting "removed at build end on every completed run,
including runs that ended through an error path". -/
theorem generate_error_path_keeps_listeners_cex :
    buildListenersRemoved benvC9 renvAllOk fenvAllOk grenvC7b graphState0
        [] [] [] = false
      ∧ benvC9.prepOk = false := by
  refine ⟨rfl, rfl⟩

/-- C9 as amended: the listeners installed by `generate` are removed
exactly on the two successful terminal paths — a successful export of a
supported non-default format, or a default-format run in which the graph
stage proceeds, all pages and the index persist succeed, the resource
copies reach `onComplete`, and the dev server is not started.  On every
other path (any stage failure, unsupported format, pending export, or a
serving run) they remain installed. -/
theorem buildListenersRemoved_iff_success_paths (benv : BuildEnv)
    (renv : RenderEnv) (fenv : FinalEnv) (genv : GraphEnv) (gst : GraphState)
    (modules : List GModule) (pages adds : List RenderPage) :
    buildListenersRemoved benv renv fenv genv gst modules pages adds = true ↔
      (benv.prepOk = true ∧
        ((benv.exportDefault = false ∧ benv.exportSupported = true ∧
            benv.exportOk = true)
          ∨ (benv.exportDefault = true
              ∧ (processGraphs genv gst benv.disableGraph modules).2 =
                  StageEnd.proceeded
              ∧ (processPages renv renderState0 pages adds).2 = true
              ∧ onCompleteReached fenv = true ∧ fenv.serve = false))) := by
  unfold buildListenersRemoved
  cases hprep : benv.prepOk
  · simp
  · simp only [Bool.not_true, Bool.false_eq_true, if_false]
    cases hexp : benv.exportDefault
    · simp only [Bool.not_false, if_true]
      cases hsup : benv.exportSupported <;> cases hok : benv.exportOk <;> simp
    · simp only [Bool.not_true, Bool.false_eq_true, if_false]
      rcases hg : processGraphs genv gst benv.disableGraph modules with ⟨gs, se⟩
      cases se
      · cases hpp : (processPages renv renderState0 pages adds).2 <;>
          simp [processResources, Bool.and_eq_true, Bool.not_eq_true']
      · simp
      · simp

end Compodoc
